import Mathlib

/-!
Verification development for the crawl-and-extract pipeline of
`car_scraper.py` (the `CarScraper` class and its `main` entry point).

The Python source is shallowly embedded: pure text manipulation becomes
Lean functions on `String`/`List Char`; the `requests` session becomes an
oracle `String → Nat → Option Document` giving, for each URL and attempt
index, either a parsed document or a failure; the `BeautifulSoup` document
tree is pre-digested into exactly the queries the scraper performs
(`get_text()`, `find_all('a')`, `find_all(['td','th'])` with next-sibling
texts, heading-delimited sections, `find_all('tr')`); the growing CSV file
becomes a list of rows and a writability flag; Python `re` patterns are
transcribed literally into a small regular-expression AST executed by a
fueled backtracking matcher with Python's leftmost / priority-order
semantics.
-/

namespace CarScraper

/-! ### Python string primitives -/

/-- Python `str.lower()` (ASCII case folding, which is all the scraper needs). -/
def pyLower (s : String) : String :=
  ⟨s.data.map Char.toLower⟩

/-- Strip characters satisfying `p` from both ends of a string. -/
def stripAround (p : Char → Bool) (s : String) : String :=
  ⟨((s.data.dropWhile p).reverse.dropWhile p).reverse⟩

/-- Python `str.strip()` with no argument: whitespace from both ends. -/
def pyStrip (s : String) : String :=
  stripAround Char.isWhitespace s

/-- Python `str.strip('/')`. -/
def stripSlashes (s : String) : String :=
  stripAround (fun c => c = '/') s

/-- Python `value.replace(',', '')`. -/
def removeCommas (s : String) : String :=
  ⟨s.data.filter (fun c => c ≠ ',')⟩

/-- Python `needle in hay` on strings (substring test). -/
def containsStr (hay needle : String) : Bool :=
  hay.data.tails.any (fun t => needle.data.isPrefixOf t)

/-- Maximal runs of characters satisfying `p`, in order: the semantics of
Python `re.findall` applied to a pattern of the form `[p]+`.  Runs are
never empty; characters outside runs are discarded. -/
def runsP (p : Char → Bool) : List Char → List (List Char)
  | [] => []
  | c :: cs =>
    let rest := runsP p cs
    if p c then
      match cs with
      | [] => [[c]]
      | c2 :: _ =>
        if p c2 then
          match rest with
          | r :: rs => (c :: r) :: rs
          | [] => [[c]]
        else [c] :: rest
    else rest

/-- Python `str.split()` with no argument: maximal whitespace-free tokens. -/
def pyWords (s : String) : List String :=
  (runsP (fun c => !c.isWhitespace) s.data).map (fun l => ⟨l⟩)

/-- Python `' '.join(value.split())`: collapse interior whitespace. -/
def normalizeWs (s : String) : String :=
  String.intercalate " " (pyWords s)

/-- Python `' '.join(value.split()[:1])`: the first token, or `""`. -/
def firstWordOnly (s : String) : String :=
  String.intercalate " " ((pyWords s).take 1)

/-- Helper for `pyTitle`: the boolean records whether the previous character
was alphabetic. -/
def pyTitleAux : Bool → List Char → List Char
  | _, [] => []
  | prevAlpha, c :: cs =>
    if c.isAlpha then
      (if prevAlpha then c.toLower else c.toUpper) :: pyTitleAux true cs
    else c :: pyTitleAux false cs

/-- Python `str.title()`: each alphabetic run gets an initial capital. -/
def pyTitle (s : String) : String :=
  ⟨pyTitleAux false s.data⟩

/-- Value of a decimal digit string, as produced by Python `int(...)` on the
concatenation of digit runs. -/
def digitsToNat (l : List Char) : Nat :=
  l.foldl (fun a c => 10 * a + (c.toNat - 48)) 0

/-- Python `s.split(sep)` for a single-character separator: splits at every
occurrence, keeping empty pieces. -/
def splitOnChar (sep : Char) : List Char → List (List Char)
  | [] => [[]]
  | c :: cs =>
    let r := splitOnChar sep cs
    if c = sep then [] :: r
    else
      match r with
      | h :: t => (c :: h) :: t
      | [] => [[c]]

/-- Python `s.startswith(pre)`. -/
def pyStartsWith (s pre : String) : Bool :=
  pre.data.isPrefixOf s.data

/-- Python `href.strip('/').split('/')[-1]`: the last URL path segment. -/
def lastSegment (href : String) : String :=
  ((splitOnChar '/' (stripSlashes href).data).map (fun l => (⟨l⟩ : String))).getLastD ""

/-! ### Typed values and the feature dictionary -/

/-- Runtime value stored in a row.  Python floats are represented by the
rational number the scraper's decimal regex denotes; only the value's kind
matters to the claims. -/
inductive Value where
  | vInt : Int → Value
  | vFloat : ℚ → Value
  | vBool : Bool → Value
  | vStr : String → Value
deriving DecidableEq

/-- One row of `features_mapping.csv` as read from disk. -/
structure RawRow where
  website : String
  output_csv : String
  d_type : String
deriving DecidableEq

/-- One entry of the loaded feature dictionary: normalized source phrase,
output column name, and the declared type tag (kept as the raw string,
exactly as `convert_data_type` consumes it). -/
structure Mapping where
  website : String
  output_csv : String
  d_type : String
deriving DecidableEq

/-- The loaded dictionary, in Python dict insertion order. -/
abbrev FeaturesMapping := List Mapping

/-- The phrases `convert_data_type` maps to boolean `False`. -/
def falseWords : List String :=
  ["", "no", "false", "n/a", "not available"]

/-- First match of `re.search(r'\d+\.?\d*', value)`: integer part, value of
the fractional digits, and their count.  Returns `none` when the string has
no digit. -/
def floatScan : List Char → Option (Nat × Nat × Nat)
  | [] => none
  | c :: cs =>
    if c.isDigit then
      let r1 := cs.dropWhile Char.isDigit
      let d1 := c :: cs.takeWhile Char.isDigit
      match r1 with
      | '.' :: r2 =>
        some (digitsToNat d1, digitsToNat (r2.takeWhile Char.isDigit),
              (r2.takeWhile Char.isDigit).length)
      | _ => some (digitsToNat d1, 0, 0)
    else floatScan cs

/-- `CarScraper.convert_data_type`.  The `try` in the source cannot fire:
`int(...)` only ever receives a non-empty digit string and `float(...)` a
well-formed decimal, so the embedding is the happy path.  Branch order and
the guards mirror the source. -/
def convert_data_type (value : String) (dataType : String) : Option Value :=
  if value = "" then none
  else if pyStrip value = "" then none
  else if dataType = "int" then
    if (runsP Char.isDigit (removeCommas (pyStrip value)).data).isEmpty then none
    else some (.vInt (digitsToNat (runsP Char.isDigit (removeCommas (pyStrip value)).data).flatten))
  else if dataType = "float" then
    match floatScan (removeCommas (pyStrip value)).data with
    | some (ip, fv, fl) => some (.vFloat ((ip : ℚ) + (fv : ℚ) / (10 : ℚ) ^ fl))
    | none => none
  else if dataType = "bool" then
    some (.vBool (!falseWords.contains (pyLower (pyStrip value))))
  else
    some (.vStr (pyStrip value))

/-- The value kind demanded by a declared type tag: everything other than
`int`, `float` and `bool` is handled by the string branch. -/
def typeMatches (v : Value) (dataType : String) : Prop :=
  if dataType = "int" then ∃ n, v = .vInt n
  else if dataType = "float" then ∃ q, v = .vFloat q
  else if dataType = "bool" then ∃ b, v = .vBool b
  else ∃ s, v = .vStr s

/-! ### A small regular-expression engine

Each Python pattern used by the scraper is transcribed below into this AST
and executed by a fueled backtracking matcher.  Results are produced in
Python's backtracking priority order (greedy pieces consume as much as
possible first, alternatives are tried left to right), so the head of the
result list is exactly the match `re.search` returns at a position. -/

/-- Regular-expression AST.  `star true` is greedy `*`, `star false` is lazy
`*?`; `grp` is the single capturing group each scraper pattern contains;
`wordB` is the word-boundary assertion `\b`. -/
inductive RE where
  | lit : String → RE
  | cls : (Char → Bool) → RE
  | seq : RE → RE → RE
  | alt : RE → RE → RE
  | star : Bool → RE → RE
  | opt : RE → RE
  | grp : RE → RE
  | wordB : RE

/-- Structural size of a pattern, used to budget the matcher's fuel. -/
def sizeRE : RE → Nat
  | .lit _ => 1
  | .cls _ => 1
  | .seq a b => sizeRE a + sizeRE b + 1
  | .alt a b => sizeRE a + sizeRE b + 1
  | .star _ a => sizeRE a + 1
  | .opt a => sizeRE a + 1
  | .grp a => sizeRE a + 1
  | .wordB => 1

/-- One way a pattern can match a prefix of the input: the consumed
characters, the remaining input, and the capture of group 1 if it
participated. -/
structure MRes where
  consumed : List Char
  rest : List Char
  cap : Option (List Char)

/-- The character preceding the current position after consuming
`consumed`, falling back to the position's own predecessor. -/
def newPrev (consumed : List Char) (prev : Option Char) : Option Char :=
  match consumed.getLast? with
  | some c => some c
  | none => prev

/-- Python `\w`: ASCII letters, digits and underscore. -/
def isWordChar (c : Char) : Bool :=
  c.isAlpha || c.isDigit || c = '_'

/-- Capture of a sequence: the later part wins if both carry one (each
scraper pattern has a single group, so at most one side is `some`). -/
def mergeCap (a b : Option (List Char)) : Option (List Char) :=
  match b with
  | some c => some c
  | none => a

/-- All prefix matches of `r` against `cs`, in backtracking priority order.
`prev` is the character before the current position (for `\b`); `fuel`
bounds the recursion depth and is chosen large enough by `reSearch` that it
never runs out on the inputs evaluated here. -/
def reRun (fuel : Nat) (r : RE) (prev : Option Char) (cs : List Char) : List MRes :=
  match fuel with
  | 0 => []
  | f + 1 =>
    match r with
    | .lit s =>
      if s.data.isPrefixOf cs then [⟨s.data, cs.drop s.data.length, none⟩] else []
    | .cls p =>
      match cs with
      | [] => []
      | c :: cs2 => if p c then [⟨[c], cs2, none⟩] else []
    | .seq a b =>
      (reRun f a prev cs).flatMap (fun x =>
        (reRun f b (newPrev x.consumed prev) x.rest).map (fun y =>
          ⟨x.consumed ++ y.consumed, y.rest, mergeCap x.cap y.cap⟩))
    | .alt a b => reRun f a prev cs ++ reRun f b prev cs
    | .star greedy a =>
      let more := (reRun f a prev cs).flatMap (fun x =>
        if x.consumed.isEmpty then []
        else (reRun f (.star greedy a) (newPrev x.consumed prev) x.rest).map (fun y =>
          ⟨x.consumed ++ y.consumed, y.rest, mergeCap x.cap y.cap⟩))
      if greedy then more ++ [⟨[], cs, none⟩] else ⟨[], cs, none⟩ :: more
    | .opt a => reRun f a prev cs ++ [⟨[], cs, none⟩]
    | .grp a => (reRun f a prev cs).map (fun x => ⟨x.consumed, x.rest, some x.consumed⟩)
    | .wordB =>
      let left := match prev with | some c => isWordChar c | none => false
      let right := match cs with | c :: _ => isWordChar c | [] => false
      if left != right then [⟨[], cs, none⟩] else []

/-- Fuel that dominates the matcher's recursion depth on input `cs`. -/
def fuelFor (r : RE) (cs : List Char) : Nat :=
  (cs.length + 1) * (sizeRE r + 2) + 1

/-- `re.search` position scan: try the pattern at each start position, left
to right, and report the capture of the first position that matches. -/
def reSearchAux (r : RE) (prev : Option Char) (cs : List Char) : Option (Option (List Char)) :=
  match reRun (fuelFor r cs) r prev cs with
  | res :: _ => some res.cap
  | [] =>
    match cs with
    | [] => none
    | c :: cs2 => reSearchAux r (some c) cs2

/-- `match.group(1)` of `re.search(r, s)`, or `none` when there is no match.
Every pattern below has its group on a mandatory path, so a successful
search always carries a capture. -/
def reSearch (r : RE) (s : String) : Option String :=
  match reSearchAux r none s.data with
  | some (some cap) => some ⟨cap⟩
  | some none => none
  | none => none

/-! ### The scraper's patterns -/

/-- Character class `\d`. -/
def clsDigit : RE := .cls Char.isDigit

/-- Character class `\s`. -/
def clsWs : RE := .cls Char.isWhitespace

/-- Character class `[:\s]`. -/
def clsColonWs : RE := .cls (fun c => c = ':' || c.isWhitespace)

/-- Character class `[a-zA-Z]`. -/
def clsAlpha : RE := .cls Char.isAlpha

/-- Character class `[a-zA-Z0-9]`. -/
def clsAlnum : RE := .cls (fun c => c.isAlpha || c.isDigit)

/-- Character class `\w` as a pattern. -/
def clsWord : RE := .cls isWordChar

/-- Character class `[a-zA-Z0-9\s/\-]` from the generic string pattern. -/
def clsMid : RE := .cls (fun c => c.isAlpha || c.isDigit || c.isWhitespace || c = '/' || c = '-')

/-- Greedy `+` on a pattern. -/
def rplus (r : RE) : RE := .seq r (.star true r)

/-- `\d+(?:,\d+)*`: the capture body of the four price patterns. -/
def numCommaRE : RE :=
  .seq (rplus clsDigit) (.star true (.seq (.lit ",") (rplus clsDigit)))

/-- `{key}[:\s]*(\d+(?:,\d+)*)\s*egp`: one `price_patterns` entry of
`scrape_basic_info`, with the fixed phrase `key` spliced in. -/
def priceRE (key : String) : RE :=
  .seq (.lit key)
    (.seq (.star true clsColonWs)
      (.seq (.grp numCommaRE) (.seq (.star true clsWs) (.lit "egp"))))

/-- `\d+(?:\.\d+)?(?:,\d+)*`: the numeric capture of the text walk. -/
def specNumBody : RE :=
  .seq (rplus clsDigit)
    (.seq (.opt (.seq (.lit ".") (rplus clsDigit)))
      (.star true (.seq (.lit ",") (rplus clsDigit))))

/-- `{key}[:\s]*(\d+(?:\.\d+)?(?:,\d+)*)\s*(\w*)`: the int/float pattern of
`scrape_specifications` (the second group is never read). -/
def specNumRE (key : String) : RE :=
  .seq (.lit key)
    (.seq (.star true clsColonWs)
      (.seq (.grp specNumBody) (.seq (.star true clsWs) (.star true clsWord))))

/-- `{key}([a-zA-Z]+\s+[a-zA-Z]+)`: Traction_Type. -/
def tractionRE (key : String) : RE :=
  .seq (.lit key) (.grp (.seq (rplus clsAlpha) (.seq (rplus clsWs) (rplus clsAlpha))))

/-- `{key}([a-zA-Z]+)`: Transmission. -/
def transmissionRE (key : String) : RE :=
  .seq (.lit key) (.grp (rplus clsAlpha))

/-- `{key}([0-9]+|diesel|petrol)`: Fuel_Type. -/
def fuelRE (key : String) : RE :=
  .seq (.lit key) (.grp (.alt (rplus clsDigit) (.alt (.lit "diesel") (.lit "petrol"))))

/-- `\b{key}\b[:\s]*(\d{4})`: Year. -/
def yearRE (key : String) : RE :=
  .seq .wordB
    (.seq (.lit key)
      (.seq .wordB
        (.seq (.star true clsColonWs)
          (.grp (.seq clsDigit (.seq clsDigit (.seq clsDigit clsDigit)))))))

/-- `{key}[:\s]*([0-9]+\s*cc(?:\s*-\s*turbo)?)`: Engine_CC. -/
def engineRE (key : String) : RE :=
  .seq (.lit key)
    (.seq (.star true clsColonWs)
      (.grp (.seq (rplus clsDigit)
        (.seq (.star true clsWs)
          (.seq (.lit "cc")
            (.opt (.seq (.star true clsWs)
              (.seq (.lit "-") (.seq (.star true clsWs) (.lit "turbo"))))))))))

/-- `(?:km|kilometers?)?` inside the Warranty pattern. -/
def kmAlt : RE :=
  .alt (.lit "km") (.seq (.lit "kilometer") (.opt (.lit "s")))

/-- `(?:year\(s\)?|years?|yr\(s\)?)?` inside the Warranty pattern. -/
def yearAlt : RE :=
  .alt (.seq (.lit "year(s") (.opt (.lit ")")))
    (.alt (.seq (.lit "year") (.opt (.lit "s")))
      (.seq (.lit "yr(s") (.opt (.lit ")"))))

/-- `/\s*[0-9]*\s*(?:year...)?` inside the Warranty pattern. -/
def slashPart : RE :=
  .seq (.lit "/")
    (.seq (.star true clsWs)
      (.seq (.star true clsDigit) (.seq (.star true clsWs) (.opt yearAlt))))

/-- `{key}[:\s]*([0-9]+\s*(?:km|kilometers?)?\s*(?:/\s*[0-9]*\s*(?:year\(s\)?|years?|yr\(s\)?)?)?)`: Warranty. -/
def warrantyRE (key : String) : RE :=
  .seq (.lit key)
    (.seq (.star true clsColonWs)
      (.grp (.seq (rplus clsDigit)
        (.seq (.star true clsWs)
          (.seq (.opt kmAlt) (.seq (.star true clsWs) (.opt slashPart)))))))

/-- `\b{key}\b[:\s]*([a-zA-Z0-9]+(?:[a-zA-Z0-9\s/\-]*?[a-zA-Z0-9])?)`: the
generic string pattern. -/
def genericRE (key : String) : RE :=
  .seq .wordB
    (.seq (.lit key)
      (.seq .wordB
        (.seq (.star true clsColonWs)
          (.grp (.seq (rplus clsAlnum)
            (.opt (.seq (.star false clsMid) clsAlnum)))))))

/-- The dispatch of `scrape_specifications` on `output_csv` for string
fields: each special field gets its own pattern, the rest the generic one. -/
def stringFieldRE (m : Mapping) : RE :=
  if m.output_csv = "Traction_Type" then tractionRE m.website
  else if m.output_csv = "Transmission" then transmissionRE m.website
  else if m.output_csv = "Fuel_Type" then fuelRE m.website
  else if m.output_csv = "Year" then yearRE m.website
  else if m.output_csv = "Engine_CC" then engineRE m.website
  else if m.output_csv = "Warranty" then warrantyRE m.website
  else genericRE m.website

/-- The fields that keep the whole matched value (whitespace-normalized);
all others are cut to their first token. -/
def specialClean : List String :=
  ["Traction_Type", "Transmission", "Fuel_Type", "Year", "Engine_CC", "Warranty"]

/-! ### Rows and documents -/

/-- `row_data`: a Python dict from column name to value.  Assignment conses
(newest first), lookup takes the newest binding, matching dict overwrite.
The stored `Option Value` mirrors that `scrape_basic_info`'s price branch
assigns `convert_data_type`'s result without a `None` guard; a binding to
`none` and an absent key are indistinguishable to every `.get` the scraper
performs, so `rowGet` flattens them. -/
abbrev Row := List (String × Option Value)

/-- Dict assignment `row_data[k] = v`. -/
def rowSet (r : Row) (k : String) (v : Option Value) : Row :=
  (k, v) :: r

/-- Dict read `row_data.get(k)`. -/
def rowGet (r : Row) (k : String) : Option Value :=
  match r.find? (fun e => e.1 == k) with
  | some e => e.2
  | none => none

/-- A `td`/`th` cell as `scrape_basic_info` queries it: its text and the
text of `find_next_sibling(['td','th'])` when one exists. -/
structure Cell where
  text : String
  nextCell : Option String
deriving DecidableEq

/-- An element of a heading-delimited section (`td`/`li`/`span`/`div`/`dt`/`dd`)
with the texts of its `find_next_siblings()`. -/
structure Elem where
  text : String
  siblings : List String
deriving DecidableEq

/-- A heading (`h1`..`h6`) with the elements of `heading.parent or
heading.find_next_sibling()`; `none` when that expression is falsy. -/
structure Section where
  headingText : String
  elems : Option (List Elem)
deriving DecidableEq

/-- A `tr` with its cell texts and the `(href, text)` of its anchor
descendants, in document order. -/
structure TableRow where
  cells : List String
  anchors : List (String × String)
deriving DecidableEq

/-- A parsed page, pre-digested into the exact queries the scraper runs
against the BeautifulSoup tree. -/
structure Document where
  text : String
  anchors : List (String × String)
  cells : List Cell
  sections : List Section
  tableRows : List TableRow
deriving DecidableEq

/-! ### Extraction engine -/

/-- The relation `sorted(..., key=lambda x: len(x[0]), reverse=True)` sorts
by: earlier entries have keys at least as long. -/
def featLonger (a b : Mapping) : Prop :=
  b.website.length ≤ a.website.length

instance : DecidableRel featLonger :=
  fun a b => inferInstanceAs (Decidable (b.website.length ≤ a.website.length))

instance : IsTotal Mapping featLonger :=
  ⟨fun a b => Nat.le_total b.website.length a.website.length⟩

instance : IsTrans Mapping featLonger :=
  ⟨fun _ _ _ h1 h2 => Nat.le_trans h2 h1⟩

/-- `sorted(self.features_mapping.items(), key=lambda x: len(x[0]),
reverse=True)`: a stable sort, longest key first. -/
def sortedFeatures (fm : FeaturesMapping) : FeaturesMapping :=
  List.insertionSort featLonger fm

/-- Dict lookup `self.features_mapping[k]` (keys are unique after loading). -/
def fmGet (fm : FeaturesMapping) (k : String) : Option Mapping :=
  fm.find? (fun m => m.website == k)

/-- The recurring statement pair `converted_value = self.convert_data_type(x,
mapping['d_type']); if converted_value is not None: row_data[...] =
converted_value`. -/
def setConverted (row : Row) (m : Mapping) (x : String) : Row :=
  match convert_data_type x m.d_type with
  | some v => rowSet row m.output_csv (some v)
  | none => row

/-- One iteration of the text walk of `scrape_specifications` for a single
dictionary entry, against the lowercased page text. -/
def applyTextFeature (allText : String) (row : Row) (m : Mapping) : Row :=
  if containsStr allText m.website then
    if m.d_type = "bool" then rowSet row m.output_csv (some (.vBool true))
    else if m.d_type = "int" ∨ m.d_type = "float" then
      match reSearch (specNumRE m.website) allText with
      | some g => setConverted row m (removeCommas g)
      | none => row
    else
      match reSearch (stringFieldRE m) allText with
      | some g =>
        setConverted row m
          (if m.output_csv ∈ specialClean then normalizeWs (pyStrip g)
           else firstWordOnly (pyStrip g))
      | none => row
  else row

/-- `CarScraper.extract_value_from_element`: the first of the next three
siblings with non-empty text different from the element's own, else the
element's text. -/
def extract_value_from_element (e : Elem) : String :=
  let t := pyStrip e.text
  match (e.siblings.take 3).find? (fun sb => pyStrip sb != "" && pyStrip sb != t) with
  | some sb => pyStrip sb
  | none => t

/-- One element of `CarScraper.extract_features_from_section`: the first
dictionary entry contained in the element's text wins (the `break`). -/
def sectionElemFeature (fm : FeaturesMapping) (row : Row) (e : Elem) : Row :=
  match fm.find? (fun m => containsStr (pyStrip (pyLower e.text)) m.website) with
  | some m =>
    if m.d_type = "bool" then rowSet row m.output_csv (some (.vBool true))
    else setConverted row m (extract_value_from_element e)
  | none => row

/-- The keywords that make a heading open a section scan. -/
def headingKeywords : List String :=
  ["description", "equipment", "specification", "feature"]

/-- One heading of the section scan of `scrape_specifications`. -/
def sectionFeature (fm : FeaturesMapping) (row : Row) (sec : Section) : Row :=
  if headingKeywords.any (fun kw => containsStr (pyLower sec.headingText) kw) then
    match sec.elems with
    | some es => es.foldl (sectionElemFeature fm) row
    | none => row
  else row

/-- One `tr` of the structured-table walk of `scrape_specifications`: first
cell is the feature candidate, second the value; first dictionary entry
contained in the feature text wins. -/
def tableRowFeature (fm : FeaturesMapping) (row : Row) (tr : TableRow) : Row :=
  if tr.cells.length ≥ 2 then
    match fm.find? (fun m => containsStr (pyStrip (pyLower (tr.cells.getD 0 ""))) m.website) with
    | some m => setConverted row m (pyStrip (tr.cells.getD 1 ""))
    | none => row
  else row

/-- `CarScraper.scrape_specifications`: text walk over the dictionary
sorted longest-key-first, then the heading sections, then the table rows. -/
def scrape_specifications (fm : FeaturesMapping) (doc : Document) (row : Row) : Row :=
  let allText := pyLower doc.text
  let r1 := (sortedFeatures fm).foldl (applyTextFeature allText) row
  let r2 := doc.sections.foldl (sectionFeature fm) r1
  doc.tableRows.foldl (tableRowFeature fm) r2

/-- The fixed `price_patterns` of `scrape_basic_info`, in dict order. -/
def pricePatterns : List (String × RE) :=
  [("official price", priceRE "official price"),
   ("market price", priceRE "market price"),
   ("minimum deposit", priceRE "minimum deposit"),
   ("minimum installment", priceRE "minimum installment")]

/-- The price-pattern half of `scrape_basic_info`.  Note the source assigns
`converted_value` without a `None` check here. -/
def basicInfoPrices (fm : FeaturesMapping) (allText : String) (row : Row) : Row :=
  pricePatterns.foldl (fun r p =>
    match reSearch p.2 allText, fmGet fm p.1 with
    | some g, some m => rowSet r m.output_csv (convert_data_type (removeCommas g) m.d_type)
    | _, _ => r) row

/-- The raw value candidate of one `scrape_basic_info` cell: the stripped
next-sibling text when a sibling exists, else the cell's own lowercased,
stripped text. -/
def basicCellValue (cell : Cell) : String :=
  match cell.nextCell with
  | some nt => pyStrip nt
  | none => pyStrip (pyLower cell.text)

/-- One cell of the table-cell half of `scrape_basic_info`: first matching
dictionary entry wins (the `break`). -/
def basicInfoCells (fm : FeaturesMapping) (row : Row) (cell : Cell) : Row :=
  match fm.find? (fun m => containsStr (pyStrip (pyLower cell.text)) m.website) with
  | some m => setConverted row m (basicCellValue cell)
  | none => row

/-- `CarScraper.scrape_basic_info`. -/
def scrape_basic_info (fm : FeaturesMapping) (doc : Document) (row : Row) : Row :=
  let r1 := basicInfoPrices fm (pyLower doc.text) row
  doc.cells.foldl (basicInfoCells fm) r1

/-- The row as initialized at the top of `scrape_trim_data`. -/
def initRow (brand modelName fullName : String) : Row :=
  [("car_brand", some (.vStr brand)),
   ("car_model", some (.vStr modelName)),
   ("car_trim", some (.vStr fullName))]

/-- Python truthiness of `row_data.get(k)`. -/
def truthy : Option Value → Bool
  | none => false
  | some (.vInt n) => n != 0
  | some (.vFloat q) => q != 0
  | some (.vBool b) => b
  | some (.vStr s) => s != ""

/-- The market-price fallback of `scrape_trim_data`: `if not
row_data.get('Market_Price_EGP') and row_data.get('Official_Price_EGP')`. -/
def postFill (row : Row) : Row :=
  if !truthy (rowGet row "Market_Price_EGP") && truthy (rowGet row "Official_Price_EGP") then
    rowSet row "Market_Price_EGP" (rowGet row "Official_Price_EGP")
  else row

/-- The row built by `scrape_trim_data` before the market-price fallback. -/
def extractRowData (fm : FeaturesMapping) (brand modelName fullName : String)
    (doc : Document) : Row :=
  scrape_specifications fm doc (scrape_basic_info fm doc (initRow brand modelName fullName))

/-- The row `scrape_trim_data` hands to the writer. -/
def scrapeRowData (fm : FeaturesMapping) (brand modelName fullName : String)
    (doc : Document) : Row :=
  postFill (extractRowData fm brand modelName fullName doc)

/-! ### Transport: `make_request` -/

/-- Observable events of one `make_request` call: the single politeness
delay (`wait_politely()` before the first attempt), the exponential backoff
sleeps, and the attempts themselves with their outcome. -/
inductive Ev where
  | politeDelay : Ev
  | backoff : Nat → Ev
  | attempt : Bool → Ev
deriving DecidableEq

/-- A network oracle for one URL: the parse result of attempt `k`. -/
abbrev AttemptF := Nat → Option Document

/-- A network oracle for the whole run. -/
abbrev NetF := String → AttemptF

/-- The `for attempt in range(max_retries)` loop of `make_request`.  Returns
the document (or `none` after the budget is spent), the number of times
`self.stats['errors']` was incremented — the source increments on every
failed attempt — and the event trace.  `fuel` is the number of loop
iterations left; the `fuel = 0` row is the unreachable `return None` after
the loop. -/
def requestLoop (net : AttemptF) (maxRetries attempt fuel : Nat) :
    Option Document × Nat × List Ev :=
  match fuel with
  | 0 => (none, 0, [])
  | f + 1 =>
    let pre : Ev := if attempt > 0 then Ev.backoff (2 ^ attempt) else Ev.politeDelay
    match net attempt with
    | some doc => (some doc, 0, [pre, Ev.attempt true])
    | none =>
      if attempt = maxRetries - 1 then (none, 1, [pre, Ev.attempt false])
      else
        let r := requestLoop net maxRetries (attempt + 1) f
        (r.1, r.2.1 + 1, pre :: Ev.attempt false :: r.2.2)

/-- `CarScraper.make_request` with its default retry budget of 3. -/
def make_request (net : AttemptF) : Option Document × Nat × List Ev :=
  requestLoop net 3 0 3

/-! ### URL pattern matching for discovery

`find_all('a', href=re.compile(p))` keeps an anchor when `p` *searches*
inside its `href`.  All three discovery patterns are a literal prefix
followed by one segment and, for the `$`-anchored ones, an optional
trailing slash at the end of the string. -/

/-- Does some suffix of `l` start here?  `segSlashEnd p l` checks
`[p]+/?$`: a non-empty run of `p`-characters, an optional `/`, end. -/
def segSlashEnd (p : Char → Bool) (l : List Char) : Bool :=
  let ds := l.takeWhile p
  let r := l.dropWhile p
  !ds.isEmpty && (r.isEmpty || r == ['/'])

/-- `re.search` of `{pre}[p]+/?$` inside `href`. -/
def searchEndsWith (pre : String) (p : Char → Bool) (href : String) : Bool :=
  href.data.tails.any (fun t => pre.data.isPrefixOf t && segSlashEnd p (t.drop pre.data.length))

/-- Anchor filter of `get_brands`: `/en/new-car/[^/]+/?$`. -/
def brandAnchorOk (href : String) : Bool :=
  searchEndsWith "/en/new-car/" (fun c => c ≠ '/') href

/-- Anchor filter of `get_models`: `/en/new-car/{brand}/[^/]+/?$`. -/
def modelAnchorOk (brand href : String) : Bool :=
  searchEndsWith ("/en/new-car/" ++ brand ++ "/") (fun c => c ≠ '/') href

/-- Anchor filter of `get_trims`: `/en/new-car/{brand}/{model}/\d+/?$`. -/
def trimAnchorOk (brand modelName href : String) : Bool :=
  searchEndsWith ("/en/new-car/" ++ brand ++ "/" ++ modelName ++ "/") Char.isDigit href

/-- The fallback filter of `get_trims`, whose pattern has no end anchor:
`/en/new-car/{brand}/{model}/\d+`. -/
def trimAnchorLoose (brand modelName href : String) : Bool :=
  let pre := ("/en/new-car/" ++ brand ++ "/" ++ modelName ++ "/").data
  href.data.tails.any (fun t =>
    pre.isPrefixOf t &&
      (match t.drop pre.length with
       | c :: _ => c.isDigit
       | [] => false))

/-! ### Discovery crawler -/

/-- A model reference as `get_models` returns it. -/
structure ModelRef where
  name : String
  url : String
deriving DecidableEq

/-- A trim reference as `get_trims` returns it; `fullName` is the dedup
identity `"{Brand} {model} {label}"`. -/
structure TrimRef where
  name : String
  fullName : String
  url : String
deriving DecidableEq

/-- The catalog root. -/
def base_url : String := "https://eg.hatla2ee.com/en/new-car"

/-- `CarScraper.get_brands`: fetch the root, collect the last path segment
of each matching anchor, dropping empties, the `new-car` sentinel and
duplicates.  Also returns the error increments of the fetch. -/
def get_brands (net : NetF) : List String × Nat :=
  let r := make_request (net base_url)
  match r.1 with
  | none => ([], r.2.1)
  | some doc =>
    (doc.anchors.foldl (fun brands a =>
      if brandAnchorOk a.1 then
        let b := lastSegment a.1
        if b ≠ "" ∧ b ≠ "new-car" ∧ b ∉ brands then brands ++ [b] else brands
      else brands) [], r.2.1)

/-- `CarScraper.get_models`: fetch the brand page, collect matching anchors
whose visible text carries no unavailability marker. -/
def get_models (net : NetF) (brand : String) : List ModelRef × Nat :=
  let r := make_request (net (base_url ++ "/" ++ brand))
  match r.1 with
  | none => ([], r.2.1)
  | some doc =>
    (doc.anchors.foldl (fun models a =>
      if modelAnchorOk brand a.1 then
        if containsStr (pyLower a.2) "_error_" ∨ containsStr (pyLower a.2) "not available" then
          models
        else
          let mn := lastSegment a.1
          if mn ≠ "" then models ++ [⟨mn, a.1⟩] else models
      else models) [], r.2.1)

/-- `CarScraper.get_trims`: direct anchors first; when that yields nothing,
fall back to the first matching anchor inside each non-empty table row.
Both paths drop trims whose full identity is already in `scraped`. -/
def get_trims (net : NetF) (scraped : List String) (brand modelName url : String) :
    List TrimRef × Nat :=
  let r := make_request (net url)
  match r.1 with
  | none => ([], r.2.1)
  | some doc =>
    let primary := doc.anchors.foldl (fun trims a =>
      if trimAnchorOk brand modelName a.1 then
        let tn := pyStrip a.2
        if a.1 ≠ "" ∧ tn ≠ "" then
          let full := pyTitle brand ++ " " ++ modelName ++ " " ++ tn
          if full ∉ scraped then trims ++ [⟨tn, full, a.1⟩] else trims
        else trims
      else trims) []
    let trims :=
      if primary.isEmpty then
        doc.tableRows.foldl (fun trims tr =>
          if tr.cells.length > 0 then
            match tr.anchors.find? (fun a => trimAnchorLoose brand modelName a.1) with
            | some a =>
              let tn := pyStrip a.2
              if a.1 ≠ "" ∧ tn ≠ "" then
                let full := pyTitle brand ++ " " ++ modelName ++ " " ++ tn
                if full ∉ scraped then trims ++ [⟨tn, full, a.1⟩] else trims
              else trims
            | none => trims
          else trims) []
      else primary
    (trims, r.2.1)

/-! ### Run state, writer and the trim pipeline -/

/-- The run's mutable state: the dedup set, the output dataset (the CSV
body, header implied), and the `RunStats` counters. -/
structure RState where
  scrapedTrims : List String
  output : List Row
  errors : Nat
  brandsProcessed : Nat
  modelsProcessed : Nat
  trimsProcessed : Nat
deriving DecidableEq

/-- The world outside the scraper: the parse result of
`features_mapping.csv` (`none` = missing or unparseable), the network, and
whether writes to the output CSV succeed. -/
structure Env where
  dictFile : Option (List RawRow)
  net : NetF
  csvWritable : Bool

/-- `CarScraper.save_row_to_csv`: append one row; any exception is caught
and logged inside, so the caller never observes a failure. -/
def save_row_to_csv (env : Env) (row : Row) (s : RState) : RState :=
  if env.csvWritable then { s with output := s.output ++ [row] } else s

/-- The URL normalization at the top of `scrape_trim_data`. -/
def trimFullUrl (u : String) : String :=
  if pyStartsWith u "http" then u else "https://eg.hatla2ee.com" ++ u

/-- `CarScraper.scrape_trim_data`: skip an already-seen identity, fetch the
detail page, build the row, attempt the append, then mark the identity as
seen — the source adds to `scraped_trims` after `save_row_to_csv` returns,
and `save_row_to_csv` swallows write failures. -/
def scrape_trim_data (env : Env) (fm : FeaturesMapping) (brand modelName : String)
    (trim : TrimRef) (s : RState) : RState :=
  if trim.fullName ∈ s.scrapedTrims then s
  else
    let r := make_request (env.net (trimFullUrl trim.url))
    match r.1 with
    | none => { s with errors := s.errors + r.2.1 }
    | some doc =>
      let row := scrapeRowData fm brand modelName trim.fullName doc
      let s2 := save_row_to_csv env row { s with errors := s.errors + r.2.1 }
      { s2 with scrapedTrims := trim.fullName :: s2.scrapedTrims }

/-! ### Run controller -/

/-- One trim iteration of `scrape_all_brands_and_models` (the inner `try`):
`scrape_trim_data` followed by the `trims_processed` bump. -/
def processTrim (env : Env) (fm : FeaturesMapping) (brand modelName : String)
    (s : RState) (trim : TrimRef) : RState :=
  let s1 := scrape_trim_data env fm brand modelName trim s
  { s1 with trimsProcessed := s1.trimsProcessed + 1 }

/-- One model iteration: `get_trims`, `continue` when empty (skipping the
`models_processed` bump), else all trims then the bump. -/
def processModel (env : Env) (fm : FeaturesMapping) (brand : String)
    (s : RState) (model : ModelRef) : RState :=
  let r := get_trims env.net s.scrapedTrims brand model.name
    (base_url ++ "/" ++ brand ++ "/" ++ model.name)
  let s1 := { s with errors := s.errors + r.2 }
  if r.1.isEmpty then s1
  else
    let s2 := r.1.foldl (processTrim env fm brand model.name) s1
    { s2 with modelsProcessed := s2.modelsProcessed + 1 }

/-- One brand iteration: `get_models`, `continue` when empty, else all
models then the `brands_processed` bump. -/
def processBrand (env : Env) (fm : FeaturesMapping)
    (s : RState) (brand : String) : RState :=
  let r := get_models env.net brand
  let s1 := { s with errors := s.errors + r.2 }
  if r.1.isEmpty then s1
  else
    let s2 := r.1.foldl (processModel env fm brand) s1
    { s2 with brandsProcessed := s2.brandsProcessed + 1 }

/-- `CarScraper.scrape_all_brands_and_models`: `initialize_csv` truncates
the dataset, brands are discovered, optionally filtered to a non-empty
include list (Python truthiness: an empty `specific_brands` list means no
filter), the exclude list is removed, and each brand is processed. -/
def scrape_all_brands_and_models (env : Env) (fm : FeaturesMapping)
    (excludedBrands : List String) (specificBrands : Option (List String))
    (s0 : RState) : RState :=
  let s := { s0 with output := [] }
  let r := get_brands env.net
  let s1 := { s with errors := s.errors + r.2 }
  if r.1.isEmpty then s1
  else
    let brands1 :=
      match specificBrands with
      | some l => if l.isEmpty then r.1 else r.1.filter (fun b => b ∈ l)
      | none => r.1
    let brands2 := brands1.filter (fun b => b ∉ excludedBrands)
    brands2.foldl (processBrand env fm) s1

/-- `CarScraper.scrape_all_hyundai_models` (legacy mode): fixed brand, no
progress counters. -/
def scrape_all_hyundai_models (env : Env) (fm : FeaturesMapping) (s0 : RState) : RState :=
  let s := { s0 with output := [] }
  let r := get_models env.net "hyundai"
  let s1 := { s with errors := s.errors + r.2 }
  if r.1.isEmpty then s1
  else
    r.1.foldl (fun st model =>
      let rt := get_trims env.net st.scrapedTrims "hyundai" model.name
        (base_url ++ "/hyundai/" ++ model.name)
      let s2 := { st with errors := st.errors + rt.2 }
      if rt.1.isEmpty then s2
      else rt.1.foldl (fun su tr => scrape_trim_data env fm "hyundai" model.name tr su) s2) s1

/-! ### Loading the dictionary and `main` -/

/-- Python dict assignment while loading: re-assigning an existing key
keeps its position and replaces its value, a new key is appended. -/
def dictInsert (l : List Mapping) (m : Mapping) : List Mapping :=
  if l.any (fun x => x.website == m.website) then
    l.map (fun x => if x.website = m.website then m else x)
  else l ++ [m]

/-- `CarScraper.load_features_mapping`: on any read/parse failure the
exception is caught, one error line is logged (counted here) and the empty
mapping is returned — the run is *not* aborted.  On success each row's
`website` is lowercased and stripped and inserted dict-style. -/
def load_features_mapping (file : Option (List RawRow)) : FeaturesMapping × Nat :=
  match file with
  | none => ([], 1)
  | some rows =>
    (rows.foldl (fun acc r => dictInsert acc ⟨pyStrip (pyLower r.website), r.output_csv, r.d_type⟩) [], 0)

/-- The parsed command line of `main`. -/
structure Args where
  brands : Option (List String)
  exclude : List String
  hyundaiOnly : Bool
  testBrands : Option (List String)

/-- The empty starting state of a freshly constructed `CarScraper`. -/
def initState : RState := ⟨[], [], 0, 0, 0, 0⟩

/-- `main`: build the scraper (which loads the dictionary), dispatch on the
flags (`--test-brands` only counts when the list is non-empty, by Python
truthiness), run, and return.  The function body contains no `sys.exit`
and every exception is handled inside the methods it calls, so the process
exit code of a completed run is always 0 — returned here as the second
component. -/
def mainRun (env : Env) (args : Args) : RState × Nat :=
  let fm := (load_features_mapping env.dictFile).1
  let s :=
    if args.hyundaiOnly then scrape_all_hyundai_models env fm initState
    else
      match args.testBrands with
      | some l =>
        if l.isEmpty then scrape_all_brands_and_models env fm args.exclude args.brands initState
        else scrape_all_brands_and_models env fm args.exclude (some l) initState
      | none => scrape_all_brands_and_models env fm args.exclude args.brands initState
  (s, 0)

/-! ### Concrete fixtures used by the witnesses and counterexamples -/

/-- An empty page. -/
def docBlank : Document := ⟨"", [], [], [], []⟩

/-- Catalog root: one brand anchor. -/
def docRoot : Document := ⟨"", [("/en/new-car/b1", "B1")], [], [], []⟩

/-- Brand page of `b1`: three model anchors. -/
def docBrand : Document :=
  ⟨"", [("/en/new-car/b1/m1", "m1"), ("/en/new-car/b1/m2", "m2"),
        ("/en/new-car/b1/m3", "m3")], [], [], []⟩

/-- Model page of `m1`: one trim anchor. -/
def docM1 : Document := ⟨"", [("/en/new-car/b1/m1/1", "T1")], [], [], []⟩

/-- Model page of `m3`: one trim anchor. -/
def docM3 : Document := ⟨"", [("/en/new-car/b1/m3/2", "T3")], [], [], []⟩

/-- Fixture network: the model page of `m2` fails on every attempt, all
other pages succeed at the first attempt. -/
def netC3 : NetF := fun url _ =>
  if url = base_url then some docRoot
  else if url = base_url ++ "/b1" then some docBrand
  else if url = base_url ++ "/b1/m1" then some docM1
  else if url = base_url ++ "/b1/m2" then none
  else if url = base_url ++ "/b1/m3" then some docM3
  else if url = "https://eg.hatla2ee.com/en/new-car/b1/m1/1" then some docBlank
  else if url = "https://eg.hatla2ee.com/en/new-car/b1/m3/2" then some docBlank
  else none

/-- Environment with a loadable (empty) dictionary and a writable CSV. -/
def envC3 : Env := ⟨some [], netC3, true⟩

/-- Environment whose dictionary file is missing/unparseable. -/
def envNoDict : Env := ⟨none, netC3, true⟩

/-- Environment whose output CSV is unwritable. -/
def envNoCsv : Env := ⟨some [], netC3, false⟩

/-- A bare `main` invocation: no flags. -/
def argsDefault : Args := ⟨none, [], false, none⟩

/-- The trim reference `get_trims` produces for model `m1` of the fixture. -/
def trimT1 : TrimRef := ⟨"T1", "B1 m1 T1", "/en/new-car/b1/m1/1"⟩

/-- Dictionary with a short key and a longer key containing it. -/
def fmC4 : FeaturesMapping :=
  [⟨"installment", "install_flag", "bool"⟩,
   ⟨"minimum installment", "Minimum_Installment", "int"⟩]

/-- Page whose text mentions only the compound phrase. -/
def docC4 : Document := ⟨"minimum installment: 5000 egp", [], [], [], []⟩

/-- Dictionary with a single boolean feature. -/
def fmC5 : FeaturesMapping := [⟨"abs", "ABS", "bool"⟩]

/-- Page whose text contains the key and whose spec table answers "No". -/
def docC5 : Document := ⟨"abs no", [], [], [], [⟨["ABS", "No"], []⟩]⟩

/-- Dictionary with the two price features. -/
def fmC8 : FeaturesMapping :=
  [⟨"official price", "Official_Price_EGP", "int"⟩,
   ⟨"market price", "Market_Price_EGP", "int"⟩]

/-- Page with an official price of 500,000 in a cell and no market price. -/
def docC8a : Document := ⟨"", [], [⟨"official price", some "500,000"⟩], [], []⟩

/-- Page with an official price of 0 in a cell and no market price. -/
def docC8b : Document := ⟨"", [], [⟨"official price", some "0"⟩], [], []⟩

/-- Model page on which the same trim anchor appears twice. -/
def docM1dup : Document :=
  ⟨"", [("/en/new-car/b1/m1/1", "T1"), ("/en/new-car/b1/m1/1", "T1")], [], [], []⟩

/-- Fixture network with the duplicated trim anchor. -/
def netC6 : NetF := fun url _ =>
  if url = base_url then some docRoot
  else if url = base_url ++ "/b1" then some docBrand
  else if url = base_url ++ "/b1/m1" then some docM1dup
  else if url = "https://eg.hatla2ee.com/en/new-car/b1/m1/1" then some docBlank
  else none

/-- Environment for the duplicate-anchor scenario. -/
def envC6 : Env := ⟨some [], netC6, true⟩

/-- Dictionary with one boolean feature for the type-conformance witness. -/
def fmC7 : FeaturesMapping := [⟨"esp", "ESP", "bool"⟩]

/-- Page whose text contains that feature. -/
def docC7 : Document := ⟨"esp", [], [], [], []⟩

/-! ### Basic lemmas -/

theorem rowGet_rowSet (r : Row) (k : String) (v : Option Value) (k' : String) :
    rowGet (rowSet r k v) k' = if k = k' then v else rowGet r k' := by
  by_cases h : k = k'
  · subst h
    simp [rowSet, rowGet, List.find?]
  · have hb : (k == k') = false := by simp [h]
    simp [rowSet, rowGet, List.find?, hb, h]

theorem foldl_preserve {α β : Type _} (P : β → Prop) (f : β → α → β) :
    ∀ (l : List α) (b : β), (∀ a ∈ l, ∀ x, P x → P (f x a)) → P b → P (l.foldl f b)
  | [], _, _, hb => hb
  | a :: l, b, h, hb =>
    foldl_preserve P f l (f b a)
      (fun a2 ha2 x hx => h a2 (List.mem_cons_of_mem _ ha2) x hx)
      (h a (List.mem_cons_self _ _) b hb)

theorem typeMatches_convert (s dt : String) (v : Value)
    (h : convert_data_type s dt = some v) : typeMatches v dt := by
  unfold convert_data_type at h
  by_cases e1 : s = ""
  · rw [if_pos e1] at h
    cases h
  rw [if_neg e1] at h
  by_cases e2 : pyStrip s = ""
  · rw [if_pos e2] at h
    cases h
  rw [if_neg e2] at h
  unfold typeMatches
  split_ifs with d1 d2 d3
  · rw [if_pos d1] at h
    split at h
    · cases h
    · exact ⟨_, (Option.some.inj h).symm⟩
  · rw [if_neg d1, if_pos d2] at h
    split at h
    · exact ⟨_, (Option.some.inj h).symm⟩
    · cases h
  · rw [if_neg d1, if_neg d2, if_pos d3] at h
    exact ⟨_, (Option.some.inj h).symm⟩
  · rw [if_neg d1, if_neg d2, if_neg d3] at h
    exact ⟨_, (Option.some.inj h).symm⟩

theorem convert_not_vBool (s dt : String) (v : Value) (hd : dt ≠ "bool")
    (h : convert_data_type s dt = some v) : ∀ b, v ≠ .vBool b := by
  intro b hb
  have hm := typeMatches_convert s dt v h
  subst hb
  unfold typeMatches at hm
  by_cases d1 : dt = "int"
  · rw [if_pos d1] at hm
    obtain ⟨n, hn⟩ := hm
    cases hn
  rw [if_neg d1] at hm
  by_cases d2 : dt = "float"
  · rw [if_pos d2] at hm
    obtain ⟨q, hq⟩ := hm
    cases hq
  rw [if_neg d2, if_neg hd] at hm
  obtain ⟨t, ht⟩ := hm
  cases ht

/-! ### Every extraction step is a typed update at a dictionary field

`FmStep fm g` says: applying `g` either leaves a field's lookup unchanged
or the field is the output column of some dictionary entry and any value
readable there afterwards matches that entry's declared type. -/

def FmStep (fm : FeaturesMapping) (g : Row → Row) : Prop :=
  ∀ row f, rowGet (g row) f = rowGet row f ∨
    ∃ m, m ∈ fm ∧ f = m.output_csv ∧
      ∀ v, rowGet (g row) f = some v → typeMatches v m.d_type

theorem fmStep_id (fm : FeaturesMapping) : FmStep fm (fun r => r) :=
  fun _ _ => Or.inl rfl

theorem fmStep_of_shape (fm : FeaturesMapping) (g : Row → Row)
    (h : ∀ row, g row = row ∨ ∃ m ov, m ∈ fm ∧ g row = rowSet row m.output_csv ov ∧
      ∀ v, ov = some v → typeMatches v m.d_type) : FmStep fm g := by
  intro row f
  rcases h row with e | ⟨m, ov, hm, e, hv⟩
  · left
    rw [e]
  · by_cases hf : m.output_csv = f
    · right
      refine ⟨m, hm, hf.symm, fun v hvv => ?_⟩
      rw [e, rowGet_rowSet, if_pos hf] at hvv
      exact hv v hvv
    · left
      rw [e, rowGet_rowSet, if_neg hf]

theorem fmStep_comp (fm : FeaturesMapping) (g1 g2 : Row → Row)
    (h1 : FmStep fm g1) (h2 : FmStep fm g2) : FmStep fm (fun r => g2 (g1 r)) := by
  intro row f
  rcases h2 (g1 row) f with e2 | ⟨m, hm, hf, hv⟩
  · rcases h1 row f with e1 | ⟨m, hm, hf, hv⟩
    · left
      rw [e2, e1]
    · right
      refine ⟨m, hm, hf, fun v hvv => ?_⟩
      rw [e2] at hvv
      exact hv v hvv
  · exact Or.inr ⟨m, hm, hf, hv⟩

theorem fmStep_foldl {α : Type _} (fm : FeaturesMapping) (f : Row → α → Row) :
    ∀ l : List α, (∀ a ∈ l, FmStep fm (fun r => f r a)) →
      FmStep fm (fun r => l.foldl f r)
  | [], _ => fmStep_id fm
  | a :: l, h =>
    fmStep_comp fm (fun r => f r a) (fun r => l.foldl f r)
      (h a (List.mem_cons_self _ _))
      (fmStep_foldl fm f l (fun a2 ha2 => h a2 (List.mem_cons_of_mem _ ha2)))

theorem typeMatches_vBool (dt : String) (hd : dt = "bool") (b : Bool) :
    typeMatches (.vBool b) dt := by
  subst hd
  unfold typeMatches
  rw [if_neg (by decide), if_neg (by decide), if_pos rfl]
  exact ⟨b, rfl⟩

theorem setConverted_shape (fm : FeaturesMapping) (m : Mapping) (hm : m ∈ fm)
    (row : Row) (x : String) :
    setConverted row m x = row ∨ ∃ m2 ov, m2 ∈ fm ∧
      setConverted row m x = rowSet row m2.output_csv ov ∧
      ∀ v, ov = some v → typeMatches v m2.d_type := by
  unfold setConverted
  cases hcv : convert_data_type x m.d_type with
  | none => exact Or.inl rfl
  | some v =>
    refine Or.inr ⟨m, some v, hm, rfl, fun v2 hv2 => ?_⟩
    cases hv2
    exact typeMatches_convert _ _ _ hcv

theorem applyTextFeature_shape (fm : FeaturesMapping) (allText : String) (m : Mapping)
    (hm : m ∈ fm) (row : Row) :
    applyTextFeature allText row m = row ∨ ∃ m2 ov, m2 ∈ fm ∧
      applyTextFeature allText row m = rowSet row m2.output_csv ov ∧
      ∀ v, ov = some v → typeMatches v m2.d_type := by
  unfold applyTextFeature
  by_cases c1 : containsStr allText m.website = true
  · rw [if_pos c1]
    by_cases d1 : m.d_type = "bool"
    · rw [if_pos d1]
      exact Or.inr ⟨m, some (.vBool true), hm, rfl,
        fun v hv => by cases hv; exact typeMatches_vBool _ d1 true⟩
    rw [if_neg d1]
    by_cases d2 : m.d_type = "int" ∨ m.d_type = "float"
    · rw [if_pos d2]
      cases reSearch (specNumRE m.website) allText with
      | none => exact Or.inl rfl
      | some g => exact setConverted_shape fm m hm row (removeCommas g)
    · rw [if_neg d2]
      cases reSearch (stringFieldRE m) allText with
      | none => exact Or.inl rfl
      | some g => exact setConverted_shape fm m hm row _
  · rw [if_neg c1]
    exact Or.inl rfl

theorem sectionElemFeature_shape (fm : FeaturesMapping) (e : Elem) (row : Row) :
    sectionElemFeature fm row e = row ∨ ∃ m2 ov, m2 ∈ fm ∧
      sectionElemFeature fm row e = rowSet row m2.output_csv ov ∧
      ∀ v, ov = some v → typeMatches v m2.d_type := by
  unfold sectionElemFeature
  split
  case h_2 => exact Or.inl rfl
  case h_1 m hfd =>
    have hm : m ∈ fm := List.mem_of_find?_eq_some hfd
    split
    case isTrue d1 =>
      exact Or.inr ⟨m, some (.vBool true), hm, rfl,
        fun v hv => by cases hv; exact typeMatches_vBool _ d1 true⟩
    case isFalse d1 =>
      exact setConverted_shape fm m hm row _

theorem tableRowFeature_shape (fm : FeaturesMapping) (tr : TableRow) (row : Row) :
    tableRowFeature fm row tr = row ∨ ∃ m2 ov, m2 ∈ fm ∧
      tableRowFeature fm row tr = rowSet row m2.output_csv ov ∧
      ∀ v, ov = some v → typeMatches v m2.d_type := by
  unfold tableRowFeature
  by_cases hl : tr.cells.length ≥ 2
  · rw [if_pos hl]
    cases hfd : fm.find? (fun m => containsStr (pyStrip (pyLower (tr.cells.getD 0 ""))) m.website) with
    | none => exact Or.inl rfl
    | some m => exact setConverted_shape fm m (List.mem_of_find?_eq_some hfd) row _
  · rw [if_neg hl]
    exact Or.inl rfl

theorem basicInfoCells_shape (fm : FeaturesMapping) (cell : Cell) (row : Row) :
    basicInfoCells fm row cell = row ∨ ∃ m2 ov, m2 ∈ fm ∧
      basicInfoCells fm row cell = rowSet row m2.output_csv ov ∧
      ∀ v, ov = some v → typeMatches v m2.d_type := by
  unfold basicInfoCells
  cases hfd : fm.find? (fun m => containsStr (pyStrip (pyLower cell.text)) m.website) with
  | none => exact Or.inl rfl
  | some m => exact setConverted_shape fm m (List.mem_of_find?_eq_some hfd) row _

theorem basicInfoPriceStep_shape (fm : FeaturesMapping) (allText : String)
    (p : String × RE) (row : Row) :
    (match reSearch p.2 allText, fmGet fm p.1 with
     | some g, some m => rowSet row m.output_csv (convert_data_type (removeCommas g) m.d_type)
     | _, _ => row) = row ∨ ∃ m2 ov, m2 ∈ fm ∧
      (match reSearch p.2 allText, fmGet fm p.1 with
       | some g, some m => rowSet row m.output_csv (convert_data_type (removeCommas g) m.d_type)
       | _, _ => row) = rowSet row m2.output_csv ov ∧
      ∀ v, ov = some v → typeMatches v m2.d_type := by
  cases hsr : reSearch p.2 allText with
  | none => exact Or.inl rfl
  | some g =>
    cases hfd : fmGet fm p.1 with
    | none => exact Or.inl rfl
    | some m =>
      refine Or.inr ⟨m, convert_data_type (removeCommas g) m.d_type,
        List.mem_of_find?_eq_some hfd, rfl, fun v hv => ?_⟩
      exact typeMatches_convert _ _ _ hv

theorem fmStep_sectionFeature (fm : FeaturesMapping) (sec : Section) :
    FmStep fm (fun r => sectionFeature fm r sec) := by
  intro row f
  unfold sectionFeature
  dsimp only
  by_cases hk : (headingKeywords.any fun kw => containsStr (pyLower sec.headingText) kw) = true
  · rw [if_pos hk]
    cases sec.elems with
    | none => exact Or.inl rfl
    | some es =>
      exact fmStep_foldl fm (sectionElemFeature fm) es
        (fun e _ => fmStep_of_shape fm _ (fun row => sectionElemFeature_shape fm e row)) row f
  · rw [if_neg hk]
    exact Or.inl rfl

theorem fmStep_textWalk (fm : FeaturesMapping) (allText : String) :
    FmStep fm (fun r => (sortedFeatures fm).foldl (applyTextFeature allText) r) :=
  fmStep_foldl fm (applyTextFeature allText) (sortedFeatures fm)
    (fun m hm => fmStep_of_shape fm _
      (fun row => applyTextFeature_shape fm allText m
        ((List.perm_insertionSort featLonger fm).subset hm) row))

theorem fmStep_scrape_specifications (fm : FeaturesMapping) (doc : Document) :
    FmStep fm (fun r => scrape_specifications fm doc r) := by
  have h1 := fmStep_textWalk fm (pyLower doc.text)
  have h2 := fmStep_foldl fm (sectionFeature fm) doc.sections
    (fun sec _ => fmStep_sectionFeature fm sec)
  have h3 := fmStep_foldl fm (tableRowFeature fm) doc.tableRows
    (fun tr _ => fmStep_of_shape fm _ (fun row => tableRowFeature_shape fm tr row))
  exact fmStep_comp fm
    (fun r => doc.sections.foldl (sectionFeature fm)
      ((sortedFeatures fm).foldl (applyTextFeature (pyLower doc.text)) r))
    (fun r => doc.tableRows.foldl (tableRowFeature fm) r)
    (fmStep_comp fm _ _ h1 h2) h3

theorem fmStep_scrape_basic_info (fm : FeaturesMapping) (doc : Document) :
    FmStep fm (fun r => scrape_basic_info fm doc r) := by
  have h1 : FmStep fm (fun r => basicInfoPrices fm (pyLower doc.text) r) :=
    fmStep_foldl fm _ pricePatterns
      (fun p _ => fmStep_of_shape fm _
        (fun row => basicInfoPriceStep_shape fm (pyLower doc.text) p row))
  have h2 := fmStep_foldl fm (basicInfoCells fm) doc.cells
    (fun cell _ => fmStep_of_shape fm _ (fun row => basicInfoCells_shape fm cell row))
  exact fmStep_comp fm (fun r => basicInfoPrices fm (pyLower doc.text) r)
    (fun r => doc.cells.foldl (basicInfoCells fm) r) h1 h2

/-! ### Type conformance of produced rows -/

/-- Every readable field of `row` is an identity field with its identity
value, a dictionary output field holding a value of its declared type, or
the market-price field holding a value typed by an official-price entry
(the post-fill copy). -/
def GoodRow (fm : FeaturesMapping) (b mo tr : String) (row : Row) : Prop :=
  ∀ f v, rowGet row f = some v →
    (f = "car_brand" ∧ v = .vStr b) ∨
    (f = "car_model" ∧ v = .vStr mo) ∨
    (f = "car_trim" ∧ v = .vStr tr) ∨
    (∃ m, m ∈ fm ∧ m.output_csv = f ∧ typeMatches v m.d_type) ∨
    (f = "Market_Price_EGP" ∧
      ∃ m, m ∈ fm ∧ m.output_csv = "Official_Price_EGP" ∧ typeMatches v m.d_type)

theorem rowGet_nil (f : String) : rowGet ([] : Row) f = none := rfl

theorem rowGet_initRow (b mo tr f : String) :
    rowGet (initRow b mo tr) f =
      if "car_brand" = f then some (.vStr b)
      else if "car_model" = f then some (.vStr mo)
      else if "car_trim" = f then some (.vStr tr)
      else none := by
  have e : initRow b mo tr =
      rowSet (rowSet (rowSet ([] : Row) "car_trim" (some (.vStr tr)))
        "car_model" (some (.vStr mo))) "car_brand" (some (.vStr b)) := rfl
  rw [e, rowGet_rowSet, rowGet_rowSet, rowGet_rowSet, rowGet_nil]

theorem goodRow_init (fm : FeaturesMapping) (b mo tr : String) :
    GoodRow fm b mo tr (initRow b mo tr) := by
  intro f v h
  rw [rowGet_initRow] at h
  split_ifs at h with h1 h2 h3
  · exact Or.inl ⟨h1.symm, (Option.some.inj h).symm⟩
  · exact Or.inr (Or.inl ⟨h2.symm, (Option.some.inj h).symm⟩)
  · exact Or.inr (Or.inr (Or.inl ⟨h3.symm, (Option.some.inj h).symm⟩))

theorem goodRow_fmStep {fm : FeaturesMapping} {g : Row → Row} {b mo tr : String}
    {row : Row} (hg : FmStep fm g) (hrow : GoodRow fm b mo tr row) :
    GoodRow fm b mo tr (g row) := by
  intro f v hv
  rcases hg row f with e | ⟨m, hm, hf, hmatch⟩
  · exact hrow f v (by rw [e] at hv; exact hv)
  · exact Or.inr (Or.inr (Or.inr (Or.inl ⟨m, hm, hf.symm, hmatch v hv⟩)))

theorem goodRow_postFill {fm : FeaturesMapping} {b mo tr : String} {row : Row}
    (h : GoodRow fm b mo tr row) : GoodRow fm b mo tr (postFill row) := by
  unfold postFill
  by_cases hc : (!truthy (rowGet row "Market_Price_EGP") &&
      truthy (rowGet row "Official_Price_EGP")) = true
  · rw [if_pos hc]
    intro f v hv
    rw [rowGet_rowSet] at hv
    by_cases hf : "Market_Price_EGP" = f
    · rw [if_pos hf] at hv
      rcases h "Official_Price_EGP" v hv with ⟨h1, _⟩ | ⟨h1, _⟩ | ⟨h1, _⟩ |
        ⟨m, hm, hout, hmatch⟩ | ⟨h1, _⟩
      · exact absurd h1 (by decide)
      · exact absurd h1 (by decide)
      · exact absurd h1 (by decide)
      · exact Or.inr (Or.inr (Or.inr (Or.inr ⟨hf.symm, m, hm, hout, hmatch⟩)))
      · exact absurd h1 (by decide)
    · rw [if_neg hf] at hv
      exact h f v hv
  · rw [if_neg hc]
    exact h

theorem goodRow_scrapeRowData (fm : FeaturesMapping) (b mo tr : String) (doc : Document) :
    GoodRow fm b mo tr (scrapeRowData fm b mo tr doc) :=
  goodRow_postFill
    (goodRow_fmStep (fmStep_scrape_specifications fm doc)
      (goodRow_fmStep (fmStep_scrape_basic_info fm doc) (goodRow_init fm b mo tr)))

/-! ### The identity column survives extraction -/

/-- No dictionary entry writes to the `car_trim` identity column. -/
def NoTrimOverride (fm : FeaturesMapping) : Prop :=
  ∀ m ∈ fm, m.output_csv ≠ "car_trim"

theorem carTrim_of_fmStep {fm : FeaturesMapping} {g : Row → Row}
    (hg : FmStep fm g) (hno : NoTrimOverride fm) (row : Row) :
    rowGet (g row) "car_trim" = rowGet row "car_trim" := by
  rcases hg row "car_trim" with e | ⟨m, hm, hf, _⟩
  · exact e
  · exact absurd hf.symm (hno m hm)

theorem carTrim_postFill (row : Row) :
    rowGet (postFill row) "car_trim" = rowGet row "car_trim" := by
  unfold postFill
  split
  · rw [rowGet_rowSet, if_neg (by decide)]
  · rfl

theorem carTrim_scrapeRowData (fm : FeaturesMapping) (b mo tr : String)
    (doc : Document) (hno : NoTrimOverride fm) :
    rowGet (scrapeRowData fm b mo tr doc) "car_trim" = some (.vStr tr) := by
  have e0 : rowGet (initRow b mo tr) "car_trim" = some (.vStr tr) := by
    rw [rowGet_initRow, if_neg (by decide), if_neg (by decide), if_pos rfl]
  have e1 : rowGet (scrape_basic_info fm doc (initRow b mo tr)) "car_trim"
      = rowGet (initRow b mo tr) "car_trim" :=
    carTrim_of_fmStep (fmStep_scrape_basic_info fm doc) hno _
  have e2 : rowGet (scrape_specifications fm doc (scrape_basic_info fm doc (initRow b mo tr))) "car_trim"
      = rowGet (scrape_basic_info fm doc (initRow b mo tr)) "car_trim" :=
    carTrim_of_fmStep (fmStep_scrape_specifications fm doc) hno _
  have e3 : rowGet (postFill (extractRowData fm b mo tr doc)) "car_trim"
      = rowGet (extractRowData fm b mo tr doc) "car_trim" := carTrim_postFill _
  calc rowGet (scrapeRowData fm b mo tr doc) "car_trim"
      = rowGet (extractRowData fm b mo tr doc) "car_trim" := e3
    _ = rowGet (scrape_basic_info fm doc (initRow b mo tr)) "car_trim" := e2
    _ = rowGet (initRow b mo tr) "car_trim" := e1
    _ = some (.vStr tr) := e0

/-! ### The dedup invariant -/

/-- How many output rows carry `T` in their `car_trim` column. -/
def cntTrim (T : String) (out : List Row) : Nat :=
  (out.filter (fun r => decide (rowGet r "car_trim" = some (Value.vStr T)))).length

theorem cntTrim_append (T : String) (out : List Row) (row : Row) :
    cntTrim T (out ++ [row]) =
      cntTrim T out + (if rowGet row "car_trim" = some (Value.vStr T) then 1 else 0) := by
  unfold cntTrim
  rw [List.filter_append, List.length_append]
  by_cases h : rowGet row "car_trim" = some (Value.vStr T)
  · simp [h]
  · simp [h]

/-- At most one output row for `T`, and if one exists `T` is in the dedup
set. -/
def DedupInv (T : String) (s : RState) : Prop :=
  cntTrim T s.output ≤ 1 ∧ (1 ≤ cntTrim T s.output → T ∈ s.scrapedTrims)

/-- `T` is in the dedup set and no output row carries it. -/
def PreSeeded (T : String) (s : RState) : Prop :=
  T ∈ s.scrapedTrims ∧ cntTrim T s.output = 0

theorem scrape_trim_data_eq (env : Env) (fm : FeaturesMapping) (b mo : String)
    (tr : TrimRef) (s : RState) :
    scrape_trim_data env fm b mo tr s =
      if tr.fullName ∈ s.scrapedTrims then s
      else
        match (make_request (env.net (trimFullUrl tr.url))).1 with
        | none => { s with errors := s.errors + (make_request (env.net (trimFullUrl tr.url))).2.1 }
        | some doc =>
          { s with
              errors := s.errors + (make_request (env.net (trimFullUrl tr.url))).2.1,
              output :=
                if env.csvWritable then
                  s.output ++ [scrapeRowData fm b mo tr.fullName doc]
                else s.output,
              scrapedTrims := tr.fullName :: s.scrapedTrims } := by
  unfold scrape_trim_data save_row_to_csv
  by_cases hmem : tr.fullName ∈ s.scrapedTrims
  · rw [if_pos hmem, if_pos hmem]
  rw [if_neg hmem, if_neg hmem]
  cases hr : (make_request (env.net (trimFullUrl tr.url))).1 with
  | none => simp only [hr]
  | some doc =>
    simp only [hr]
    by_cases hw : env.csvWritable = true
    · simp only [hw, if_true]
    · simp only [hw, if_false, Bool.false_eq_true]

theorem scrape_trim_data_dedup (env : Env) (fm : FeaturesMapping)
    (b mo : String) (tr : TrimRef) (T : String) (s : RState)
    (hno : NoTrimOverride fm) :
    (DedupInv T s → DedupInv T (scrape_trim_data env fm b mo tr s)) ∧
    (PreSeeded T s → PreSeeded T (scrape_trim_data env fm b mo tr s)) := by
  rw [scrape_trim_data_eq]
  by_cases hmem : tr.fullName ∈ s.scrapedTrims
  · rw [if_pos hmem]
    exact ⟨id, id⟩
  rw [if_neg hmem]
  cases hr : (make_request (env.net (trimFullUrl tr.url))).1 with
  | none =>
    simp only [hr]
    exact ⟨id, id⟩
  | some doc =>
    simp only [hr]
    have hrow : rowGet (scrapeRowData fm b mo tr.fullName doc) "car_trim"
        = some (.vStr tr.fullName) := carTrim_scrapeRowData fm b mo tr.fullName doc hno
    by_cases hw : env.csvWritable = true
    · simp only [hw, if_true]
      unfold DedupInv PreSeeded
      dsimp only
      constructor
      · rintro ⟨h1, h2⟩
        rw [cntTrim_append]
        by_cases hT : tr.fullName = T
        · have hcond : rowGet (scrapeRowData fm b mo tr.fullName doc) "car_trim"
              = some (Value.vStr T) := by rw [hrow, hT]
          rw [if_pos hcond]
          have hz : cntTrim T s.output = 0 := by
            by_contra hnz
            exact hmem (hT ▸ h2 (by omega))
          exact ⟨by omega, fun _ => hT ▸ List.mem_cons_self _ _⟩
        · have hcond : ¬ rowGet (scrapeRowData fm b mo tr.fullName doc) "car_trim"
              = some (Value.vStr T) := by
            rw [hrow]
            intro hc
            exact hT (Value.vStr.inj (Option.some.inj hc))
          rw [if_neg hcond]
          exact ⟨by omega, fun hc2 => List.mem_cons_of_mem _ (h2 (by omega))⟩
      · rintro ⟨hm, hz⟩
        have hT : tr.fullName ≠ T := fun hc => hmem (hc ▸ hm)
        have hcond : ¬ rowGet (scrapeRowData fm b mo tr.fullName doc) "car_trim"
            = some (Value.vStr T) := by
          rw [hrow]
          intro hc
          exact hT (Value.vStr.inj (Option.some.inj hc))
        rw [cntTrim_append, if_neg hcond, hz]
        exact ⟨List.mem_cons_of_mem _ hm, rfl⟩
    · simp only [hw, if_false, Bool.false_eq_true]
      unfold DedupInv PreSeeded
      dsimp only
      constructor
      · rintro ⟨h1, h2⟩
        exact ⟨h1, fun hc => List.mem_cons_of_mem _ (h2 hc)⟩
      · rintro ⟨hm, hz⟩
        exact ⟨List.mem_cons_of_mem _ hm, hz⟩

theorem processTrim_dedup (env : Env) (fm : FeaturesMapping)
    (b mo : String) (tr : TrimRef) (T : String) (s : RState)
    (hno : NoTrimOverride fm) :
    (DedupInv T s → DedupInv T (processTrim env fm b mo s tr)) ∧
    (PreSeeded T s → PreSeeded T (processTrim env fm b mo s tr)) :=
  scrape_trim_data_dedup env fm b mo tr T s hno

theorem processModel_dedup (env : Env) (fm : FeaturesMapping)
    (brand : String) (model : ModelRef) (T : String) (s : RState)
    (hno : NoTrimOverride fm) :
    (DedupInv T s → DedupInv T (processModel env fm brand s model)) ∧
    (PreSeeded T s → PreSeeded T (processModel env fm brand s model)) := by
  unfold processModel
  dsimp only
  split
  · exact ⟨id, id⟩
  · constructor
    · intro h
      exact foldl_preserve (DedupInv T) _ _ _
        (fun tr _ x hx => (processTrim_dedup env fm brand model.name tr T x hno).1 hx) h
    · intro h
      exact foldl_preserve (PreSeeded T) _ _ _
        (fun tr _ x hx => (processTrim_dedup env fm brand model.name tr T x hno).2 hx) h

theorem processBrand_dedup (env : Env) (fm : FeaturesMapping)
    (brand : String) (T : String) (s : RState) (hno : NoTrimOverride fm) :
    (DedupInv T s → DedupInv T (processBrand env fm s brand)) ∧
    (PreSeeded T s → PreSeeded T (processBrand env fm s brand)) := by
  unfold processBrand
  dsimp only
  split
  · exact ⟨id, id⟩
  · constructor
    · intro h
      exact foldl_preserve (DedupInv T) _ _ _
        (fun model _ x hx => (processModel_dedup env fm brand model T x hno).1 hx) h
    · intro h
      exact foldl_preserve (PreSeeded T) _ _ _
        (fun model _ x hx => (processModel_dedup env fm brand model T x hno).2 hx) h

theorem scrape_all_dedup (env : Env) (fm : FeaturesMapping)
    (excludedBrands : List String) (specificBrands : Option (List String))
    (s0 : RState) (T : String) (hno : NoTrimOverride fm) :
    DedupInv T (scrape_all_brands_and_models env fm excludedBrands specificBrands s0) ∧
    (T ∈ s0.scrapedTrims →
      PreSeeded T (scrape_all_brands_and_models env fm excludedBrands specificBrands s0)) := by
  have h0 : cntTrim T ([] : List Row) = 0 := rfl
  have hbaseD : DedupInv T
      { s0 with output := [], errors := s0.errors + (get_brands env.net).2 } := by
    refine ⟨?_, ?_⟩
    · show cntTrim T ([] : List Row) ≤ 1
      rw [h0]
      omega
    · show 1 ≤ cntTrim T ([] : List Row) → T ∈ s0.scrapedTrims
      rw [h0]
      omega
  have hbaseP : T ∈ s0.scrapedTrims → PreSeeded T
      { s0 with output := [], errors := s0.errors + (get_brands env.net).2 } :=
    fun hm => ⟨hm, h0⟩
  unfold scrape_all_brands_and_models
  dsimp only
  constructor
  · split
    · exact hbaseD
    · exact foldl_preserve (DedupInv T) _ _ _
        (fun brand _ x hx => (processBrand_dedup env fm brand T x hno).1 hx) hbaseD
  · intro hmem
    split
    · exact hbaseP hmem
    · exact foldl_preserve (PreSeeded T) _ _ _
        (fun brand _ x hx => (processBrand_dedup env fm brand T x hno).2 hx) (hbaseP hmem)

theorem get_trims_not_seen (net : NetF) (scraped : List String) (b mn url : String) :
    ∀ t ∈ (get_trims net scraped b mn url).1, t.fullName ∉ scraped := by
  unfold get_trims
  dsimp only
  cases hr : (make_request (net url)).1 with
  | none =>
    simp only [hr]
    intro t ht
    exact absurd ht (List.not_mem_nil t)
  | some doc =>
    simp only [hr]
    intro t ht
    split at ht
    · exact foldl_preserve (fun l => ∀ t2 ∈ l, t2.fullName ∉ scraped) _ _ _
        (fun trr _ x hx t2 ht2 => by
          split at ht2
          · split at ht2
            · split at ht2
              · split at ht2
                case isTrue hcond =>
                  rcases List.mem_append.1 ht2 with h | h
                  · exact hx t2 h
                  · rw [List.mem_singleton] at h
                    subst h
                    exact hcond
                case isFalse hcond => exact hx t2 ht2
              · exact hx t2 ht2
            · exact hx t2 ht2
          · exact hx t2 ht2)
        (fun t2 ht2 => absurd ht2 (List.not_mem_nil t2)) t ht
    · exact foldl_preserve (fun l => ∀ t2 ∈ l, t2.fullName ∉ scraped) _ _ _
        (fun a _ x hx t2 ht2 => by
          split at ht2
          · split at ht2
            · split at ht2
              case isTrue hcond =>
                rcases List.mem_append.1 ht2 with h | h
                · exact hx t2 h
                · rw [List.mem_singleton] at h
                  subst h
                  exact hcond
              case isFalse hcond => exact hx t2 ht2
            · exact hx t2 ht2
          · exact hx t2 ht2)
        (fun t2 ht2 => absurd ht2 (List.not_mem_nil t2)) t ht

/-! ### Trace characterization of `make_request` -/

theorem make_request_trace (net : AttemptF) :
    (∀ d, net 0 = some d →
      make_request net = (some d, 0, [Ev.politeDelay, Ev.attempt true])) ∧
    (∀ d, net 0 = none → net 1 = some d →
      make_request net =
        (some d, 1, [Ev.politeDelay, Ev.attempt false, Ev.backoff 2, Ev.attempt true])) ∧
    (∀ d, net 0 = none → net 1 = none → net 2 = some d →
      make_request net =
        (some d, 2, [Ev.politeDelay, Ev.attempt false, Ev.backoff 2, Ev.attempt false,
          Ev.backoff 4, Ev.attempt true])) ∧
    (net 0 = none → net 1 = none → net 2 = none →
      make_request net =
        (none, 3, [Ev.politeDelay, Ev.attempt false, Ev.backoff 2, Ev.attempt false,
          Ev.backoff 4, Ev.attempt false])) := by
  refine ⟨?_, ?_, ?_, ?_⟩
  · intro d h0
    simp [make_request, requestLoop, h0]
  · intro d h0 h1
    simp [make_request, requestLoop, h0, h1]
  · intro d h0 h1 h2
    simp [make_request, requestLoop, h0, h1, h2]
  · intro h0 h1 h2
    simp [make_request, requestLoop, h0, h1, h2]

/-! ### Characterizing the integer conversion -/

theorem filter_dropWhile_of_excl (q p : Char → Bool) (hqp : ∀ c, q c = true → p c = false) :
    ∀ l : List Char, (l.dropWhile q).filter p = l.filter p := by
  intro l
  induction l with
  | nil => rfl
  | cons c cs ih =>
    by_cases hq : q c = true
    · rw [List.dropWhile_cons_of_pos hq, ih, List.filter_cons, hqp c hq]
      simp
    · rw [List.dropWhile_cons_of_neg hq]

theorem filter_stripAround_of_excl (q p : Char → Bool) (hqp : ∀ c, q c = true → p c = false)
    (s : String) : (stripAround q s).data.filter p = s.data.filter p := by
  unfold stripAround
  rw [show (String.mk (((s.data.dropWhile q).reverse.dropWhile q).reverse)).data
      = ((s.data.dropWhile q).reverse.dropWhile q).reverse from rfl]
  rw [List.filter_reverse, filter_dropWhile_of_excl q p hqp, List.filter_reverse,
    List.reverse_reverse, filter_dropWhile_of_excl q p hqp]

theorem ws_not_digit (c : Char) (hc : Char.isWhitespace c = true) :
    Char.isDigit c = false := by
  simp [Char.isWhitespace] at hc
  rcases hc with ((h | h) | h) | h <;> subst h <;> decide

theorem filter_digit_pyStrip (s : String) :
    (pyStrip s).data.filter Char.isDigit = s.data.filter Char.isDigit :=
  filter_stripAround_of_excl Char.isWhitespace Char.isDigit ws_not_digit s

theorem filter_digit_removeCommas (s : String) :
    (removeCommas s).data.filter Char.isDigit = s.data.filter Char.isDigit := by
  unfold removeCommas
  rw [show (String.mk (s.data.filter (fun c => c ≠ ','))).data
      = s.data.filter (fun c => c ≠ ',') from rfl]
  rw [List.filter_filter]
  refine List.filter_congr ?_
  intro c _
  by_cases hc : c = ','
  · subst hc
    rfl
  · simp [hc]

theorem runsP_flatten (p : Char → Bool) : ∀ l : List Char, (runsP p l).flatten = l.filter p := by
  intro l
  induction l with
  | nil => rfl
  | cons c cs ih =>
    unfold runsP
    dsimp only
    by_cases hp : p c = true
    · rw [if_pos hp]
      cases cs with
      | nil => simp [List.filter_cons, hp]
      | cons c2 cs2 =>
        dsimp only
        by_cases hp2 : p c2 = true
        · rw [if_pos hp2]
          cases hrest : runsP p (c2 :: cs2) with
          | nil =>
            have hf : (c2 :: cs2).filter p = [] := by
              rw [← ih, hrest]
              rfl
            simp [List.filter_cons, hp, hf]
          | cons r rs =>
            have hf : (c2 :: cs2).filter p = r ++ rs.flatten := by
              rw [← ih, hrest]
              rfl
            simp [List.filter_cons, hp, hf]
        · rw [if_neg hp2]
          simp [List.filter_cons, hp, ih]
    · rw [if_neg hp]
      rw [List.filter_cons, if_neg hp]
      exact ih

theorem runsP_nonempty (p : Char → Bool) : ∀ l : List Char, ∀ r ∈ runsP p l, r ≠ [] := by
  intro l
  induction l with
  | nil => intro r hr; exact absurd hr (List.not_mem_nil r)
  | cons c cs ih =>
    intro r hr
    unfold runsP at hr
    dsimp only at hr
    by_cases hp : p c = true
    · rw [if_pos hp] at hr
      cases cs with
      | nil =>
        rw [List.mem_singleton] at hr
        subst hr
        exact List.cons_ne_nil c []
      | cons c2 cs2 =>
        dsimp only at hr
        by_cases hp2 : p c2 = true
        · rw [if_pos hp2] at hr
          cases hrest : runsP p (c2 :: cs2) with
          | nil =>
            rw [hrest, List.mem_singleton] at hr
            subst hr
            exact List.cons_ne_nil c []
          | cons r2 rs2 =>
            rw [hrest] at hr
            rcases List.mem_cons.1 hr with h | h
            · subst h
              exact List.cons_ne_nil c r2
            · exact ih r (hrest ▸ List.mem_cons_of_mem r2 h)
        · rw [if_neg hp2] at hr
          rcases List.mem_cons.1 hr with h | h
          · subst h
            exact List.cons_ne_nil c []
          · exact ih r h
    · rw [if_neg hp] at hr
      exact ih r hr

theorem runsP_eq_nil_iff (p : Char → Bool) (l : List Char) :
    runsP p l = [] ↔ l.filter p = [] := by
  constructor
  · intro h
    rw [← runsP_flatten p l, h]
    rfl
  · intro h
    cases hr : runsP p l with
    | nil => rfl
    | cons r rs =>
      have hne : r ≠ [] := runsP_nonempty p l r (hr ▸ List.mem_cons_self r rs)
      have : (runsP p l).flatten = [] := by rw [runsP_flatten, h]
      rw [hr] at this
      cases r with
      | nil => exact absurd rfl hne
      | cons x xs => cases this

theorem filter_digit_of_strip_empty (v : String) (h : pyStrip v = "") :
    v.data.filter Char.isDigit = [] := by
  rw [← filter_digit_pyStrip, h]
  rfl

theorem convert_int_char (v : String) (hv : v ≠ "") :
    (convert_data_type v "int" = none ↔ v.data.filter Char.isDigit = []) ∧
    (v.data.filter Char.isDigit ≠ [] →
      convert_data_type v "int" =
        some (.vInt (digitsToNat (v.data.filter Char.isDigit)))) := by
  unfold convert_data_type
  rw [if_neg hv]
  by_cases e2 : pyStrip v = ""
  · rw [if_pos e2]
    exact ⟨⟨fun _ => filter_digit_of_strip_empty v e2, fun _ => rfl⟩,
      fun h => absurd (filter_digit_of_strip_empty v e2) h⟩
  · rw [if_neg e2, if_pos rfl]
    have hfe : (removeCommas (pyStrip v)).data.filter Char.isDigit
        = v.data.filter Char.isDigit := by
      rw [filter_digit_removeCommas, filter_digit_pyStrip]
    constructor
    · constructor
      · intro h
        by_cases hemp : (runsP Char.isDigit (removeCommas (pyStrip v)).data).isEmpty = true
        · rw [List.isEmpty_iff] at hemp
          rw [← hfe]
          exact (runsP_eq_nil_iff Char.isDigit _).mp hemp
        · rw [if_neg hemp] at h
          cases h
      · intro h
        rw [if_pos ?hc]
        case hc =>
          rw [List.isEmpty_iff]
          rw [runsP_eq_nil_iff, hfe]
          exact h
    · intro h
      have hemp : ¬ (runsP Char.isDigit (removeCommas (pyStrip v)).data).isEmpty = true := by
        rw [List.isEmpty_iff, runsP_eq_nil_iff, hfe]
        exact h
      rw [if_neg hemp, runsP_flatten, hfe]

/-! ### Boolean fields in the presence-driven paths -/

/-- `g` introduces a boolean value only as `true`; any `false` it reports
was already in the row. -/
def BoolStep (g : Row → Row) : Prop :=
  ∀ row f b, rowGet (g row) f = some (.vBool b) →
    b = true ∨ rowGet row f = some (.vBool b)

theorem boolStep_id : BoolStep (fun r => r) :=
  fun _ _ _ h => Or.inr h

theorem boolStep_comp {g1 g2 : Row → Row} (h1 : BoolStep g1) (h2 : BoolStep g2) :
    BoolStep (fun r => g2 (g1 r)) := by
  intro row f b hb
  rcases h2 (g1 row) f b hb with e | e
  · exact Or.inl e
  · exact h1 row f b e

theorem boolStep_foldl {α : Type _} (f : Row → α → Row) :
    ∀ l : List α, (∀ a ∈ l, BoolStep (fun r => f r a)) →
      BoolStep (fun r => l.foldl f r)
  | [], _ => boolStep_id
  | a :: l, h =>
    boolStep_comp (h a (List.mem_cons_self _ _))
      (boolStep_foldl f l (fun a2 ha2 => h a2 (List.mem_cons_of_mem _ ha2)))

theorem boolStep_of_shape (g : Row → Row)
    (h : ∀ row, g row = row ∨ (∃ k, g row = rowSet row k (some (.vBool true))) ∨
      ∃ k ov, g row = rowSet row k ov ∧ ∀ b2, ov ≠ some (.vBool b2)) : BoolStep g := by
  intro row f b hb
  rcases h row with e | ⟨k, e⟩ | ⟨k, ov, e, hov⟩
  · right
    rw [e] at hb
    exact hb
  · rw [e, rowGet_rowSet] at hb
    by_cases hk : k = f
    · rw [if_pos hk] at hb
      exact Or.inl (Value.vBool.inj (Option.some.inj hb)).symm
    · rw [if_neg hk] at hb
      exact Or.inr hb
  · rw [e, rowGet_rowSet] at hb
    by_cases hk : k = f
    · rw [if_pos hk] at hb
      exact absurd hb (hov b)
    · rw [if_neg hk] at hb
      exact Or.inr hb

theorem setConverted_boolShape (row : Row) (m : Mapping) (x : String)
    (hd : m.d_type ≠ "bool") :
    setConverted row m x = row ∨
      (∃ k, setConverted row m x = rowSet row k (some (.vBool true))) ∨
      ∃ k ov, setConverted row m x = rowSet row k ov ∧ ∀ b2, ov ≠ some (.vBool b2) := by
  unfold setConverted
  cases hcv : convert_data_type x m.d_type with
  | none => exact Or.inl rfl
  | some v =>
    refine Or.inr (Or.inr ⟨m.output_csv, some v, rfl, fun b2 hb2 => ?_⟩)
    exact convert_not_vBool x m.d_type v hd hcv b2 (Option.some.inj hb2)

theorem boolStep_applyTextFeature (allText : String) (m : Mapping) :
    BoolStep (fun r => applyTextFeature allText r m) := by
  refine boolStep_of_shape _ ?_
  intro row
  unfold applyTextFeature
  by_cases c1 : containsStr allText m.website = true
  · rw [if_pos c1]
    by_cases d1 : m.d_type = "bool"
    · rw [if_pos d1]
      exact Or.inr (Or.inl ⟨m.output_csv, rfl⟩)
    rw [if_neg d1]
    by_cases d2 : m.d_type = "int" ∨ m.d_type = "float"
    · rw [if_pos d2]
      cases reSearch (specNumRE m.website) allText with
      | none => exact Or.inl rfl
      | some g => exact setConverted_boolShape row m (removeCommas g) d1
    · rw [if_neg d2]
      cases reSearch (stringFieldRE m) allText with
      | none => exact Or.inl rfl
      | some g => exact setConverted_boolShape row m _ d1
  · rw [if_neg c1]
    exact Or.inl rfl

theorem boolStep_sectionElemFeature (fm : FeaturesMapping) (e : Elem) :
    BoolStep (fun r => sectionElemFeature fm r e) := by
  refine boolStep_of_shape _ ?_
  intro row
  unfold sectionElemFeature
  split
  case h_2 => exact Or.inl rfl
  case h_1 m hfd =>
    split
    case isTrue d1 => exact Or.inr (Or.inl ⟨m.output_csv, rfl⟩)
    case isFalse d1 => exact setConverted_boolShape row m _ d1

theorem boolStep_sectionFeature (fm : FeaturesMapping) (sec : Section) :
    BoolStep (fun r => sectionFeature fm r sec) := by
  intro row f b
  unfold sectionFeature
  dsimp only
  by_cases hk : (headingKeywords.any fun kw => containsStr (pyLower sec.headingText) kw) = true
  · rw [if_pos hk]
    cases sec.elems with
    | none => exact fun h => Or.inr h
    | some es =>
      exact boolStep_foldl (sectionElemFeature fm) es
        (fun e _ => boolStep_sectionElemFeature fm e) row f b
  · rw [if_neg hk]
    exact fun h => Or.inr h

/-! ### The market-price post-fill -/

theorem postFill_copies (row : Row) (v : Value)
    (hm : rowGet row "Market_Price_EGP" = none)
    (ho : rowGet row "Official_Price_EGP" = some v)
    (ht : truthy (some v) = true) :
    rowGet (postFill row) "Market_Price_EGP" = some v ∧
    rowGet (postFill row) "Official_Price_EGP" = some v := by
  unfold postFill
  rw [hm, ho, if_pos (by rw [show truthy (none : Option Value) = false from rfl, ht]; rfl)]
  constructor
  · rw [rowGet_rowSet, if_pos rfl]
  · rw [rowGet_rowSet, if_neg (by decide)]
    exact ho

/-! ## Claims -/

/-- C1, counterexample: with `features_mapping.csv` missing or unparseable
the process still exits 0 — `load_features_mapping` catches the failure and
returns an empty mapping — and the run proceeds and still writes output
rows.  This refutes "the run is fatal … the process exits with a non-zero
exit code" at the concrete environment `envNoDict`. -/
theorem c1_counterexample :
    (mainRun envNoDict argsDefault).2 = 0 ∧
    (load_features_mapping envNoDict.dictFile).1 = [] ∧
    (mainRun envNoDict argsDefault).1.output.length = 2 :=
  ⟨rfl, rfl, by decide⟩

/-- C1, amended: every run that completes exits with code 0, regardless of
how the dictionary load or any per-item work went; a missing/unparseable
dictionary is reported once (exactly one error line) and yields the empty
mapping, after which the run proceeds rather than aborting. -/
theorem c1_exit_code :
    (∀ (env : Env) (args : Args), (mainRun env args).2 = 0) ∧
    (load_features_mapping none).2 = 1 ∧
    (load_features_mapping none).1 = [] :=
  ⟨fun _ _ => rfl, rfl, rfl⟩

/-- C2, counterexample: with the output file unwritable, `scrape_trim_data`
drops the row (output stays empty) but the identity *is* still marked as
seen, refuting "if the append fails … the identity is not marked seen". -/
theorem c2_counterexample :
    (scrape_trim_data envNoCsv [] "b1" "m1" trimT1 initState).output = [] ∧
    trimT1.fullName ∈ (scrape_trim_data envNoCsv [] "b1" "m1" trimT1 initState).scrapedTrims := by
  decide

/-- C2, amended: after a successful fetch of a not-yet-seen trim, the
identity is marked as seen after the append *attempt*, whether or not the
append succeeded (`save_row_to_csv` swallows write failures): on success
the row is appended, on failure the row is dropped, and in both cases the
call returns normally so the run continues with the next trim. -/
theorem c2_mark_seen : ∀ (env : Env) (fm : FeaturesMapping) (b mo : String)
    (tr : TrimRef) (s : RState) (doc : Document),
    tr.fullName ∉ s.scrapedTrims →
    (make_request (env.net (trimFullUrl tr.url))).1 = some doc →
    tr.fullName ∈ (scrape_trim_data env fm b mo tr s).scrapedTrims ∧
    (env.csvWritable = true →
      (scrape_trim_data env fm b mo tr s).output =
        s.output ++ [scrapeRowData fm b mo tr.fullName doc]) ∧
    (env.csvWritable = false →
      (scrape_trim_data env fm b mo tr s).output = s.output) := by
  intro env fm b mo tr s doc hmem hr
  rw [scrape_trim_data_eq, if_neg hmem]
  simp only [hr]
  refine ⟨List.mem_cons_self _ _, fun hw => ?_, fun hw => ?_⟩
  · rw [if_pos hw]
  · rw [if_neg (by rw [hw]; exact Bool.false_ne_true)]

/-- C2, witness for `c2_mark_seen` at the unwritable-CSV fixture. -/
theorem c2_witness :
    trimT1.fullName ∈ (scrape_trim_data envNoCsv [] "b1" "m1" trimT1 initState).scrapedTrims ∧
    (envNoCsv.csvWritable = true →
      (scrape_trim_data envNoCsv [] "b1" "m1" trimT1 initState).output =
        initState.output ++ [scrapeRowData [] "b1" "m1" trimT1.fullName docBlank]) ∧
    (envNoCsv.csvWritable = false →
      (scrape_trim_data envNoCsv [] "b1" "m1" trimT1 initState).output = initState.output) :=
  c2_mark_seen envNoCsv [] "b1" "m1" trimT1 initState docBlank (by decide) (by decide)

/-- C3, counterexample: a fetch whose three attempts all fail increments
the error counter three times — once per failed attempt — not "exactly
once". -/
theorem c3_counterexample :
    (make_request (fun _ => none)).2.1 = 3 ∧ ¬ (make_request (fun _ => none)).2.1 = 1 := by
  decide

/-- C3, amended: when the trims fetch of model 2 of 3 fails on every retry
attempt, the error counter ends at 3 (one increment per failed attempt of
the one exhausted fetch), the enclosing `get_trims` call returns no trims
for that model, and the run still produces the rows of sibling models 1
and 3 — the loop continues with the next sibling. -/
theorem c3_partial_failure :
    (scrape_all_brands_and_models envC3 [] [] none initState).errors = 3 ∧
    (scrape_all_brands_and_models envC3 [] [] none initState).output.map
      (fun r => rowGet r "car_trim") =
      [some (.vStr "B1 m1 T1"), some (.vStr "B1 m3 T3")] ∧
    get_trims netC3 [] "b1" "m2" (base_url ++ "/b1/m2") = ([], 3) ∧
    get_trims netC3 [] "b1" "m1" (base_url ++ "/b1/m1") = ([trimT1], 0) :=
  ⟨by decide, by decide, by decide, by decide⟩

/-- C4: the text walk runs over the dictionary sorted by key length,
longest first (`sortedFeatures` is a sorted permutation of the loaded
dictionary), and on the example — entries for both "installment" (bool)
and "minimum installment" (int), page text "minimum installment: 5000 egp"
— the compound key's output field receives the integer 5000 from the
compound pattern while the short key's boolean is merely set. -/
theorem c4_longest_key_first :
    (∀ fm : FeaturesMapping,
      List.Sorted featLonger (sortedFeatures fm) ∧ (sortedFeatures fm).Perm fm) ∧
    rowGet (scrapeRowData fmC4 "b" "m" "t" docC4) "Minimum_Installment" = some (.vInt 5000) ∧
    rowGet (scrapeRowData fmC4 "b" "m" "t" docC4) "install_flag" = some (.vBool true) :=
  ⟨fun fm => ⟨List.sorted_insertionSort featLonger fm, List.perm_insertionSort featLonger fm⟩,
   by decide, by decide⟩

/-- C5, counterexample: with dictionary entry "abs" (bool) and a document
whose page text contains "abs" but whose spec table answers "No", the
produced row holds the explicit value `false` for the boolean field even
though the key is present in the page — refuting both "present ⇒ true" and
"never set to the explicit value false". -/
theorem c5_counterexample :
    containsStr (pyLower docC5.text) "abs" = true ∧
    rowGet (scrapeRowData fmC5 "b" "m" "t" docC5) "ABS" = some (.vBool false) := by
  decide

/-- C5, amended: the presence-driven paths (the full-text walk and the
heading-section scan) only ever set a boolean field to true, but the
table-row and adjacent-cell paths run the cell text through the bool
converter, which produces the explicit value false exactly when the
stripped, lowercased text is one of ""/no/false/n-a/not available — so a
boolean field can end up explicitly false, as the table row ["ABS","No"]
shows. -/
theorem c5_bool_fields :
    (∀ s : String, convert_data_type s "bool" = some (.vBool false) →
      pyLower (pyStrip s) ∈ falseWords) ∧
    (∀ (fm : FeaturesMapping) (allText : String) (row : Row) (f : String) (b : Bool),
      rowGet ((sortedFeatures fm).foldl (applyTextFeature allText) row) f = some (.vBool b) →
      b = true ∨ rowGet row f = some (.vBool b)) ∧
    (∀ (fm : FeaturesMapping) (secs : List Section) (row : Row) (f : String) (b : Bool),
      rowGet (secs.foldl (sectionFeature fm) row) f = some (.vBool b) →
      b = true ∨ rowGet row f = some (.vBool b)) ∧
    rowGet (tableRowFeature fmC5 (initRow "b" "m" "t") ⟨["ABS", "No"], []⟩) "ABS"
      = some (.vBool false) := by
  refine ⟨?_, ?_, ?_, by decide⟩
  · intro s h
    unfold convert_data_type at h
    by_cases e1 : s = ""
    · rw [if_pos e1] at h
      cases h
    rw [if_neg e1] at h
    by_cases e2 : pyStrip s = ""
    · rw [if_pos e2] at h
      cases h
    rw [if_neg e2, if_neg (by decide), if_neg (by decide), if_pos rfl] at h
    have hinj := Value.vBool.inj (Option.some.inj h)
    have hc : falseWords.contains (pyLower (pyStrip s)) = true := by
      cases hcc : falseWords.contains (pyLower (pyStrip s))
      · rw [hcc] at hinj
        cases hinj
      · rfl
    exact List.mem_of_elem_eq_true hc
  · intro fm allText row f b h
    exact boolStep_foldl (applyTextFeature allText) (sortedFeatures fm)
      (fun m _ => boolStep_applyTextFeature allText m) row f b h
  · intro fm secs row f b h
    exact boolStep_foldl (sectionFeature fm) secs
      (fun sec _ => boolStep_sectionFeature fm sec) row f b h

/-- C5, witness for `c5_bool_fields` at the boolean feature "abs". -/
theorem c5_witness :
    true = true ∨ rowGet (initRow "b" "m" "t") "ABS" = some (Value.vBool true) :=
  c5_bool_fields.2.1 fmC5 "abs" (initRow "b" "m" "t") "ABS" true (by decide)

/-- C6: for every identity `T`, the output of a full run contains at most
one row whose `car_trim` column is `T`; if `T` is pre-seeded in the dedup
set the run writes no row for it at all; `get_trims` filters already-seen
identities out at enumeration; and in the concrete fixture where the same
trim anchor appears twice on the model page, exactly one row is written.
(The hypothesis says no dictionary entry writes to the `car_trim` identity
column, which the real output schema guarantees.) -/
theorem c6_dedup : ∀ (env : Env) (fm : FeaturesMapping) (excludedBrands : List String)
    (specificBrands : Option (List String)) (s0 : RState) (T : String),
    (∀ m ∈ fm, m.output_csv ≠ "car_trim") →
    cntTrim T (scrape_all_brands_and_models env fm excludedBrands specificBrands s0).output ≤ 1 ∧
    (T ∈ s0.scrapedTrims →
      cntTrim T (scrape_all_brands_and_models env fm excludedBrands specificBrands s0).output = 0) ∧
    (∀ (net : NetF) (scraped : List String) (b mn url : String),
      ∀ t ∈ (get_trims net scraped b mn url).1, t.fullName ∉ scraped) ∧
    cntTrim "B1 m1 T1" (scrape_all_brands_and_models envC6 [] [] none initState).output = 1 := by
  intro env fm ex sb s0 T hno
  obtain ⟨h1, h2⟩ := scrape_all_dedup env fm ex sb s0 T hno
  exact ⟨h1.1, fun hm => (h2 hm).2,
    fun net scraped b mn url => get_trims_not_seen net scraped b mn url, by decide⟩

/-- C6, witness for `c6_dedup` at the fixture environment. -/
theorem c6_witness :
    cntTrim "X" (scrape_all_brands_and_models envC3 [] [] none initState).output ≤ 1 ∧
    ("X" ∈ initState.scrapedTrims →
      cntTrim "X" (scrape_all_brands_and_models envC3 [] [] none initState).output = 0) ∧
    (∀ (net : NetF) (scraped : List String) (b mn url : String),
      ∀ t ∈ (get_trims net scraped b mn url).1, t.fullName ∉ scraped) ∧
    cntTrim "B1 m1 T1" (scrape_all_brands_and_models envC6 [] [] none initState).output = 1 :=
  c6_dedup envC3 [] [] none initState "X"
    (fun m hm => absurd hm (List.not_mem_nil m))

/-- C7: every readable field of a produced row is either an identity field
holding its identity string, or the output field of a dictionary entry
holding a value of that entry's declared kind (int entries hold integers,
float entries rationals, bool entries booleans, anything else strings), or
the market-price field holding a value typed by an official-price entry
via the post-fill; unparseable values are never stored, so no sentinel or
wrongly-typed value can appear. -/
theorem c7_type_conformance : ∀ (fm : FeaturesMapping) (b mo tr : String) (doc : Document)
    (f : String) (v : Value),
    rowGet (scrapeRowData fm b mo tr doc) f = some v →
    (f = "car_brand" ∧ v = .vStr b) ∨ (f = "car_model" ∧ v = .vStr mo) ∨
    (f = "car_trim" ∧ v = .vStr tr) ∨
    (∃ m, m ∈ fm ∧ m.output_csv = f ∧ typeMatches v m.d_type) ∨
    (f = "Market_Price_EGP" ∧
      ∃ m, m ∈ fm ∧ m.output_csv = "Official_Price_EGP" ∧ typeMatches v m.d_type) :=
  fun fm b mo tr doc => goodRow_scrapeRowData fm b mo tr doc

/-- C7, witness for `c7_type_conformance` at a concrete boolean feature. -/
theorem c7_witness :
    ("ESP" = "car_brand" ∧ Value.vBool true = Value.vStr "b") ∨
    ("ESP" = "car_model" ∧ Value.vBool true = Value.vStr "m") ∨
    ("ESP" = "car_trim" ∧ Value.vBool true = Value.vStr "t") ∨
    (∃ m, m ∈ fmC7 ∧ m.output_csv = "ESP" ∧ typeMatches (Value.vBool true) m.d_type) ∨
    ("ESP" = "Market_Price_EGP" ∧
      ∃ m, m ∈ fmC7 ∧ m.output_csv = "Official_Price_EGP" ∧
        typeMatches (Value.vBool true) m.d_type) :=
  c7_type_conformance fmC7 "b" "m" "t" docC7 "ESP" (Value.vBool true) (by decide)

/-- C8, counterexample: a row extracted with `Official_Price_EGP = 0` and
no market price is *not* post-filled — the source tests Python truthiness,
not absence, and `0` is falsy — refuting "if the market-price field is
absent but the official-price field is present, the official price value
is copied". -/
theorem c8_counterexample :
    rowGet (extractRowData fmC8 "b" "m" "t" docC8b) "Official_Price_EGP" = some (.vInt 0) ∧
    rowGet (extractRowData fmC8 "b" "m" "t" docC8b) "Market_Price_EGP" = none ∧
    rowGet (scrapeRowData fmC8 "b" "m" "t" docC8b) "Market_Price_EGP" = none := by
  decide

/-- C8, amended: after extraction, if the market-price field is absent and
the official-price field holds a *truthy* (non-zero) value, that value is
copied into the market-price field and the official-price field itself is
unchanged; the post-fill is the last step of row construction; and on the
spec's example (official 500,000, no market price found) the produced row
has `Market_Price_EGP = 500000` with the official price unchanged. -/
theorem c8_price_fallback :
    (∀ (row : Row) (v : Value),
      rowGet row "Market_Price_EGP" = none →
      rowGet row "Official_Price_EGP" = some v →
      truthy (some v) = true →
      rowGet (postFill row) "Market_Price_EGP" = some v ∧
      rowGet (postFill row) "Official_Price_EGP" = some v) ∧
    (∀ (fm : FeaturesMapping) (b mo tr : String) (doc : Document),
      scrapeRowData fm b mo tr doc = postFill (extractRowData fm b mo tr doc)) ∧
    rowGet (extractRowData fmC8 "b" "m" "t" docC8a) "Official_Price_EGP" = some (.vInt 500000) ∧
    rowGet (extractRowData fmC8 "b" "m" "t" docC8a) "Market_Price_EGP" = none ∧
    rowGet (scrapeRowData fmC8 "b" "m" "t" docC8a) "Market_Price_EGP" = some (.vInt 500000) ∧
    rowGet (scrapeRowData fmC8 "b" "m" "t" docC8a) "Official_Price_EGP" = some (.vInt 500000) :=
  ⟨postFill_copies, fun _ _ _ _ _ => rfl, by decide, by decide, by decide, by decide⟩

/-- C8, witness for `c8_price_fallback` at a one-field row. -/
theorem c8_witness :
    rowGet (postFill [("Official_Price_EGP", some (Value.vInt 5))]) "Market_Price_EGP"
      = some (Value.vInt 5) ∧
    rowGet (postFill [("Official_Price_EGP", some (Value.vInt 5))]) "Official_Price_EGP"
      = some (Value.vInt 5) :=
  c8_price_fallback.1 [("Official_Price_EGP", some (Value.vInt 5))] (Value.vInt 5)
    (by decide) (by decide) (by decide)

/-- C9: `make_request` performs exactly one politeness delay, before the
first attempt only; each retry attempt `k` (1 ≤ k ≤ 2 under the fixed
budget of 3 attempts) is preceded by a backoff wait of `2^k` seconds and
by nothing else; errors are counted once per failed attempt; and when all
three attempts fail the call logs and returns no document (`none`) instead
of raising. -/
theorem c9_retry_backoff : ∀ net : AttemptF,
    (∀ d, net 0 = some d →
      make_request net = (some d, 0, [Ev.politeDelay, Ev.attempt true])) ∧
    (∀ d, net 0 = none → net 1 = some d →
      make_request net =
        (some d, 1, [Ev.politeDelay, Ev.attempt false, Ev.backoff 2, Ev.attempt true])) ∧
    (∀ d, net 0 = none → net 1 = none → net 2 = some d →
      make_request net =
        (some d, 2, [Ev.politeDelay, Ev.attempt false, Ev.backoff 2, Ev.attempt false,
          Ev.backoff 4, Ev.attempt true])) ∧
    (net 0 = none → net 1 = none → net 2 = none →
      make_request net =
        (none, 3, [Ev.politeDelay, Ev.attempt false, Ev.backoff 2, Ev.attempt false,
          Ev.backoff 4, Ev.attempt false])) :=
  make_request_trace

/-- C9, witness for `c9_retry_backoff` at the always-failing oracle. -/
theorem c9_witness :
    make_request (fun _ => none) =
      (none, 3, [Ev.politeDelay, Ev.attempt false, Ev.backoff 2, Ev.attempt false,
        Ev.backoff 4, Ev.attempt false]) :=
  (c9_retry_backoff (fun _ => none)).2.2.2 rfl rfl rfl

/-- C10: on every non-empty input with declared kind int, the conversion
(comma stripping, then concatenating every maximal digit run) returns the
integer whose decimal digits are exactly the digit characters of the input
in order, and returns no value exactly when the input has no digit; in
particular "1.5" becomes 15 and "100000 Km / 3" becomes 1000003. -/
theorem c10_int_conversion :
    (∀ v : String, v ≠ "" →
      (convert_data_type v "int" = none ↔ v.data.filter Char.isDigit = []) ∧
      (v.data.filter Char.isDigit ≠ [] →
        convert_data_type v "int" =
          some (.vInt (digitsToNat (v.data.filter Char.isDigit))))) ∧
    convert_data_type "1.5" "int" = some (.vInt 15) ∧
    convert_data_type "100000 Km / 3" "int" = some (.vInt 1000003) :=
  ⟨convert_int_char, by decide, by decide⟩

/-- C10, witness for `c10_int_conversion` at the input "1.5". -/
theorem c10_witness :
    (convert_data_type "1.5" "int" = none ↔ ("1.5" : String).data.filter Char.isDigit = []) ∧
    (("1.5" : String).data.filter Char.isDigit ≠ [] →
      convert_data_type "1.5" "int" =
        some (.vInt (digitsToNat (("1.5" : String).data.filter Char.isDigit)))) :=
  c10_int_conversion.1 "1.5" (by decide)

end CarScraper
